import Mathlib

/-!
# Verification of the tvnamer episode-renaming engine

A shallow embedding of the tvnamer repository (fork `hook4711/tvnamer`).
The repository ships `tvnamer/main.py` (orchestration: `process_file`,
`do_rename_file`, `do_move_file`, `get_move_destination`, `find_files`,
`tvnamer`) together with its functional tests.  The parsing engine
(`FileParser`), the data model (`EpisodeInfo` / `DatedEpisodeInfo` /
`NoSeasonEpisodeInfo` with `generate_filename` and `sortable_info`), the
text utilities (`make_valid_filename`, `format_episode_numbers`,
`intepret_year`) and the low-level `Renamer` live in modules that are not
part of the sources at hand; those are modelled from the specification
(each such definition carries a doc comment starting `Modelled from the
spec:`).  Everything in `main.py` is translated directly from the code.

Strings are modelled as `List Char`.
-/

namespace Tvnamer

abbrev Str := List Char

/-! ## Decimal digit rendering and reading -/

/-- The decimal digit character for `n < 10` (clamped at `'9'`). -/
def digitChar : Nat → Char
  | 0 => '0' | 1 => '1' | 2 => '2' | 3 => '3' | 4 => '4'
  | 5 => '5' | 6 => '6' | 7 => '7' | 8 => '8' | _ => '9'

/-- Numeric value of a decimal digit character, `none` otherwise. -/
def digitVal (c : Char) : Option Nat :=
  if c = '0' then some 0 else if c = '1' then some 1
  else if c = '2' then some 2 else if c = '3' then some 3
  else if c = '4' then some 4 else if c = '5' then some 5
  else if c = '6' then some 6 else if c = '7' then some 7
  else if c = '8' then some 8 else if c = '9' then some 9
  else none

def isDigitCh (c : Char) : Bool := (digitVal c).isSome

/-- Fuel-driven digit rendering (structural recursion on the fuel, so
that concrete values reduce in the kernel). -/
def natToCharsFuel : Nat → Nat → Str
  | 0, _ => []
  | fuel + 1, n =>
    if n < 10 then [digitChar n]
    else natToCharsFuel fuel (n / 10) ++ [digitChar (n % 10)]

/-- Decimal rendering of a natural number (no leading zeros), as Python's
`"%d" % n`. -/
def natToChars (n : Nat) : Str := natToCharsFuel (n + 1) n

theorem natToCharsFuel_congr : ∀ f1 f2 n, n < f1 → n < f2 →
    natToCharsFuel f1 n = natToCharsFuel f2 n := by
  intro f1
  induction f1 with
  | zero => intro f2 n h1 _; omega
  | succ f ih =>
    intro f2 n h1 h2
    cases f2 with
    | zero => omega
    | succ g =>
      rw [natToCharsFuel, natToCharsFuel]
      by_cases hn : n < 10
      · rw [if_pos hn, if_pos hn]
      · have hd : n / 10 < n := Nat.div_lt_self (by omega) (by omega)
        rw [if_neg hn, if_neg hn, ih g (n / 10) (by omega) (by omega)]

/-- The recursion equation of `natToChars`. -/
theorem natToChars_eq (n : Nat) :
    natToChars n = if n < 10 then [digitChar n]
                   else natToChars (n / 10) ++ [digitChar (n % 10)] := by
  rw [natToChars, natToCharsFuel]
  by_cases hn : n < 10
  · rw [if_pos hn, if_pos hn]
  · have hd : n / 10 < n := Nat.div_lt_self (by omega) (by omega)
    rw [if_neg hn, if_neg hn, natToChars,
      natToCharsFuel_congr n (n / 10 + 1) (n / 10) (by omega) (by omega)]

/-- Python's `"%02d" % n`: pad to two characters with a leading zero. -/
def pad2 (n : Nat) : Str :=
  if n < 10 then '0' :: natToChars n else natToChars n

/-- Numeric value of a (digit) character run, as Python's `int(...)` on a
string of digits: non-digits contribute 0. -/
def readNat (ds : Str) : Nat :=
  ds.foldl (fun a c => 10 * a + ((digitVal c).getD 0)) 0

theorem digitVal_digitChar {n : Nat} (h : n < 10) :
    digitVal (digitChar n) = some n := by
  interval_cases n <;> rfl

theorem isDigitCh_digitChar {n : Nat} (h : n < 10) :
    isDigitCh (digitChar n) = true := by
  simp [isDigitCh, digitVal_digitChar h]

theorem natToChars_ne_nil (n : Nat) : natToChars n ≠ [] := by
  rw [natToChars_eq]
  split <;> simp

theorem natToChars_digits (n : Nat) :
    ∀ c ∈ natToChars n, isDigitCh c = true := by
  induction n using Nat.strong_induction_on with
  | _ n ih =>
    rw [natToChars_eq]
    split
    · intro c hc
      simp only [List.mem_singleton] at hc
      subst hc
      exact isDigitCh_digitChar (by omega)
    · intro c hc
      rcases List.mem_append.mp hc with h | h
      · exact ih (n / 10) (Nat.div_lt_self (by omega) (by omega)) c h
      · simp only [List.mem_singleton] at h
        subst h
        exact isDigitCh_digitChar (Nat.mod_lt _ (by omega))

theorem readNat_append_digit (ds : Str) (c : Char) :
    readNat (ds ++ [c]) = 10 * readNat ds + ((digitVal c).getD 0) := by
  simp [readNat, List.foldl_append]

theorem readNat_natToChars (n : Nat) : readNat (natToChars n) = n := by
  induction n using Nat.strong_induction_on with
  | _ n ih =>
    rw [natToChars_eq]
    split
    · simp [readNat, digitVal_digitChar ‹n < 10›]
    · rw [readNat_append_digit, ih (n / 10) (Nat.div_lt_self (by omega) (by omega)),
        digitVal_digitChar (Nat.mod_lt _ (by omega))]
      simp [Option.getD]
      omega

theorem readNat_cons_zero (ds : Str) : readNat ('0' :: ds) = readNat ds := by
  simp [readNat, digitVal]

theorem readNat_pad2 (n : Nat) : readNat (pad2 n) = n := by
  rw [pad2]
  split
  · rw [readNat_cons_zero, readNat_natToChars]
  · exact readNat_natToChars n

theorem pad2_digits (n : Nat) : ∀ c ∈ pad2 n, isDigitCh c = true := by
  rw [pad2]
  split
  · intro c hc
    rcases hc with _ | hc
    · rfl
    · exact natToChars_digits n c (by assumption)
  · exact natToChars_digits n

theorem natToChars_length_spec (m : Nat) (hm : m < 10000) :
    ((natToChars m).length = 1 ∧ m < 10) ∨
    ((natToChars m).length = 2 ∧ 10 ≤ m ∧ m < 100) ∨
    ((natToChars m).length = 3 ∧ 100 ≤ m ∧ m < 1000) ∨
    ((natToChars m).length = 4 ∧ 1000 ≤ m ∧ m < 10000) := by
  induction m using Nat.strong_induction_on with
  | _ m ih =>
    rw [natToChars_eq]
    split
    · left; exact ⟨rfl, by omega⟩
    · have hdiv : m / 10 < m := Nat.div_lt_self (by omega) (by omega)
      rcases ih (m / 10) hdiv (by omega) with ⟨h1, h2⟩ | ⟨h1, h2⟩ | ⟨h1, h2⟩ | ⟨h1, h2⟩
      · right; left
        refine ⟨by simp [h1], by omega, by omega⟩
      · right; right; left
        refine ⟨by simp [h1], by omega, by omega⟩
      · right; right; right
        refine ⟨by simp [h1], by omega, by omega⟩
      · omega

theorem natToChars_length_le_three {n : Nat} (h : n < 1000) :
    (natToChars n).length ≤ 3 := by
  rcases natToChars_length_spec n (by omega) with ⟨h1, _⟩ | ⟨h1, _⟩ | ⟨h1, _⟩ | ⟨_, h2, _⟩
    <;> omega

theorem natToChars_length_eq_four {n : Nat} (h1 : 1000 ≤ n) (h2 : n < 10000) :
    (natToChars n).length = 4 := by
  rcases natToChars_length_spec n h2 with ⟨_, h⟩ | ⟨_, _, h⟩ | ⟨_, _, h⟩ | ⟨h, _⟩ <;> omega

theorem pad2_length_le_three {n : Nat} (h : n < 1000) : (pad2 n).length ≤ 3 := by
  rw [pad2]
  split
  · rcases natToChars_length_spec n (by omega) with ⟨h1, _⟩ | ⟨_, h2, _⟩ | ⟨_, h2, _⟩ | ⟨_, h2, _⟩
    · simp [h1]
    all_goals omega
  · exact natToChars_length_le_three h

theorem pad2_length_eq_two {n : Nat} (h : n < 100) : (pad2 n).length = 2 := by
  rw [pad2]
  split
  · rcases natToChars_length_spec n (by omega) with ⟨h1, _⟩ | ⟨_, h2, _⟩ | ⟨_, h2, _⟩ | ⟨_, h2, _⟩
    · simp [h1]
    all_goals omega
  · rcases natToChars_length_spec n (by omega) with ⟨_, h2⟩ | ⟨h1, _⟩ | ⟨_, h2, _⟩ | ⟨_, h2, _⟩
    · omega
    · exact h1
    all_goals omega

/-! ## Episode identity data model

Modelled from the spec (§3): the class hierarchy `EpisodeInfo` /
`DatedEpisodeInfo` / `NoSeasonEpisodeInfo` of `tvnamer.data` (not among
the sources) becomes a tagged union with the common fields alongside. -/

structure Date where
  year : Nat
  month : Nat
  day : Nat
deriving DecidableEq, Repr

/-- The variant-specific part of an episode identity: exactly one of the
three mutually exclusive shapes. -/
inductive Variant where
  | seasonEp (seasonnumber : Nat) (episodenumbers : List Nat)
      (episodenames : List (Nat × Str)) (absolute_numbers : Option (List Nat))
  | dated (airdate : Date) (episodename : Option Str)
  | noSeason (episodenumbers : List Nat) (episodenames : List (Nat × Str))
deriving DecidableEq, Repr

/-- An episode identity: common fields plus the variant. `fullfilename`
is the file's current name on disk (`originalfilename` in `main.py`
coincides with it until the file is renamed). -/
structure EpisodeIdentity where
  seriesname : Option Str
  fullfilename : Str
  extension : Str
  filesize_in_bytes : Nat
  variant : Variant
deriving DecidableEq, Repr

/-- The identity-defining payload of a variant: the tag together with the
season number, episode numbers, or air date.  Enrichment must never
change this. -/
inductive IdentityCore where
  | seasonEp (seasonnumber : Nat) (episodenumbers : List Nat)
  | dated (airdate : Date)
  | noSeason (episodenumbers : List Nat)
deriving DecidableEq, Repr

def Variant.core : Variant → IdentityCore
  | .seasonEp s eps _ _ => .seasonEp s eps
  | .dated d _ => .dated d
  | .noSeason eps _ => .noSeason eps

/-! ## Two-digit year resolver -/

/-- Modelled from the spec: `intepret_year` of `tvnamer.files` is not
among the sources.  §4.1: `pivot = (current_year mod 100) + 10`; if the
two-digit value is at most the pivot (with wraparound at 100) the result
is `2000 + value`, else `1900 + value`. -/
def intepret_year (current_year : Nat) (d : Str) : Nat :=
  let v := readNat d
  let pivot := (current_year % 100 + 10) % 100
  if v ≤ pivot then 2000 + v else 1900 + v

/-! ## Text transform pipeline -/

/-- Modelled from the spec: a custom replacement rule
`{pattern, replacement, is_regex}` of §4.3 is modelled as the string
transformer it denotes (plain-text or regex substitution alike), applied
in list order with each rule's output feeding the next. -/
def apply_replacements (rules : List (Str → Str)) (s : Str) : Str :=
  rules.foldl (fun t r => r t) s

/-- Modelled from the spec: the lowercase-whole-name case transform. -/
def lowercase_str (s : Str) : Str := s.map Char.toLower

/-- Minor words the title-case transform leaves uncapitalized (§4.3:
articles, short prepositions/conjunctions). -/
def minor_words : List Str :=
  [("a").toList, ("an").toList, ("the").toList, ("and").toList,
   ("or").toList, ("of").toList, ("in").toList, ("on").toList,
   ("to").toList, ("for").toList]

def capitalize_word (w : Str) : Str :=
  match w with
  | [] => []
  | c :: cs => c.toUpper :: cs

/-- Modelled from the spec: the title-case transform of §4.3 capitalizes
each word except a fixed set of minor words, unless it is the first
word. -/
def titlecase_str (s : Str) : Str :=
  let ws := s.splitOn ' '
  let ws2 := ws.enum.map fun p =>
    if p.1 = 0 ∨ ¬ (lowercase_str p.2) ∈ minor_words then capitalize_word p.2
    else lowercase_str p.2
  List.intercalate [' '] ws2

/-- Modelled from the spec: Unicode normalization (§4.3) decomposes
accented characters to their closest unaccented equivalent. -/
def deaccent (c : Char) : Char :=
  if c = 'à' ∨ c = 'á' ∨ c = 'ä' then 'a'
  else if c = 'è' ∨ c = 'é' ∨ c = 'ë' then 'e'
  else if c = 'ì' ∨ c = 'í' ∨ c = 'ï' then 'i'
  else if c = 'ò' ∨ c = 'ó' ∨ c = 'ö' then 'o'
  else if c = 'ù' ∨ c = 'ú' ∨ c = 'ü' then 'u'
  else c

def normalize_str (s : Str) : Str := s.map deaccent

/-- Configuration of the filename sanitizer, as passed to
`make_valid_filename` by `wrap_validfname` in `main.py`. -/
structure SanitizeCfg where
  windows_safe : Bool
  custom_blacklist : Str
  replace_with : Str
deriving Repr

/-- The stricter "Windows-safe" reserved-character set of §4.3. -/
def windows_chars : Str := ['<', '>', ':', '"', '/', '\\', '|', '?', '*']

/-- Whether `c` is in the active blacklist: the path separators are
always illegal, plus the configurable blacklist, plus the Windows-safe
reserved and control characters when enabled. -/
def isBlacklisted (cfg : SanitizeCfg) (c : Char) : Bool :=
  c = '/' || c = '\\' || cfg.custom_blacklist.contains c ||
    (cfg.windows_safe && (windows_chars.contains c || decide (c.toNat < 32)))

/-- Modelled from the spec: `make_valid_filename` of `tvnamer.utils` is
not among the sources.  §4.3: replace every character of the active
blacklist with the configured replacement string (default empty). -/
def make_valid_filename (cfg : SanitizeCfg) (s : Str) : Str :=
  (s.map (fun c => if isBlacklisted cfg c then cfg.replace_with else [c])).flatten

/-- Configuration of the output transform stage (§4.3). -/
structure OutputCfg where
  replacements : List (Str → Str)
  lowercase : Bool
  titlecase : Bool
  normalize : Bool
  san : SanitizeCfg

/-- The output transform stage: custom replacements, then case folding,
then Unicode normalization, and sanitization always last (§4.3). -/
def output_transform (cfg : OutputCfg) (s : Str) : Str :=
  let t1 := apply_replacements cfg.replacements s
  let t2 := if cfg.lowercase then lowercase_str t1
            else if cfg.titlecase then titlecase_str t1 else t1
  let t3 := if cfg.normalize then normalize_str t2 else t2
  make_valid_filename cfg.san t3

/-- The default output configuration: no custom replacements, no case
folding, no normalization, empty custom blacklist, empty replacement. -/
def defaultOutputCfg : OutputCfg :=
  { replacements := []
    lowercase := false
    titlecase := false
    normalize := false
    san := { windows_safe := false, custom_blacklist := [], replace_with := [] } }

/-! ## Filename generation -/

/-- Modelled from the spec: `format_episode_numbers` of `tvnamer.utils`
is not among the sources.  §4.4: multi-episode numbers are formatted as a
joined range, default `NNxAA-BB` style; each number is rendered `%02d`
and the numbers are joined with `-`. -/
def format_episode_numbers : List Nat → Str
  | [] => []
  | [n] => pad2 n
  | n :: rest => pad2 n ++ '-' :: format_episode_numbers rest

/-- The episode-title segment: present only when every episode number has
a name in the mapping (§4.4: absent titles render the segment empty
rather than failing). -/
def epTitles (names : List (Nat × Str)) (eps : List Nat) : Option Str :=
  if eps ≠ [] ∧ eps.all (fun e => (names.lookup e).isSome)
  then some (List.intercalate ((", ").toList) (eps.filterMap (fun e => names.lookup e)))
  else none

def titleSegment : Option Str → Str
  | some t => [' ', '-', ' '] ++ t
  | none => []

/-- The bracketed numeric segment of the default templates. -/
def variantMid : Variant → Str
  | .seasonEp s eps _ _ => pad2 s ++ 'x' :: format_episode_numbers eps
  | .dated d _ => natToChars d.year ++ '-' :: (pad2 d.month ++ '-' :: pad2 d.day)
  | .noSeason eps _ => format_episode_numbers eps

/-- The episode title to display, if any. -/
def variantTitle : Variant → Option Str
  | .seasonEp _ eps names _ => epTitles names eps
  | .dated _ name => name
  | .noSeason eps names => epTitles names eps

/-- Modelled from the spec: the body of `generate_filename` of
`tvnamer.data` is not among the sources.  The default templates, as fixed
by the repository's own tests (`test_fileparse_api.py`):
`series - [SSxEE] - title.ext`, `series - [YYYY-MM-DD] - title.ext`,
`series - [EE] - title.ext`, with the title segment dropped when no
episode name is known. -/
def generate_base (e : EpisodeIdentity) : Str :=
  e.seriesname.getD [] ++ [' ', '-', ' ', '['] ++ variantMid e.variant ++
    ']' :: (titleSegment (variantTitle e.variant) ++ e.extension)

/-- Modelled from the spec: `generate_filename` expands the default
template and then applies the output transform stage (§4.3/§4.4),
sanitization last. -/
def generate_filename (cfg : OutputCfg) (e : EpisodeIdentity) : Str :=
  output_transform cfg (generate_base e)

/-! ## Pattern matching engine

Modelled from the spec: `FileParser` of `tvnamer.files` is not among the
sources.  §4.2: an ordered list of named grammars, first match wins, no
scoring and no backtracking across grammars; the substring preceding the
match becomes the candidate series name, de-punctuated and trimmed; an
empty series name yields `none`. -/

/-- Break a string at the first occurrence of `x`: the prefix before it
and the suffix after it, or `none` when `x` is absent. -/
def breakAtQ (x : Char) : Str → Option (Str × Str)
  | [] => none
  | c :: cs =>
    if c = x then some ([], cs)
    else
      match breakAtQ x cs with
      | some p => some (c :: p.1, p.2)
      | none => none

def allDigits (s : Str) : Bool := s.all isDigitCh

/-- Longest digit-run prefix and the remainder. -/
def spanDigits (cs : Str) : Str × Str :=
  (cs.takeWhile isDigitCh, cs.dropWhile isDigitCh)

/-- A dash-separated list of digit runs, as in `01-02-03`. -/
def parseNumberList (s : Str) : Option (List Nat) :=
  let parts := s.splitOn '-'
  if parts.all (fun p => allDigits p && !p.isEmpty)
  then some (parts.map readNat) else none

/-- Bracketed season-episode grammar: content `SSxEE` or `SSxE1-E2-…`. -/
def grammar_bracket_seasonEp (content : Str) : Option Variant :=
  match content.splitOn 'x' with
  | [s, eps] =>
    if allDigits s && !s.isEmpty then
      match parseNumberList eps with
      | some ns => some (.seasonEp (readNat s) ns [] none)
      | none => none
    else none
  | _ => none

/-- Bracketed date grammar: content `YYYY-MM-DD`. -/
def grammar_bracket_date (content : Str) : Option Variant :=
  match content.splitOn '-' with
  | [y, m, d] =>
    if allDigits y && allDigits m && allDigits d &&
        decide (y.length = 4) && decide (m.length = 2) && decide (d.length = 2)
    then some (.dated ⟨readNat y, readNat m, readNat d⟩ none)
    else none
  | _ => none

/-- Bracketed no-season grammar: content `EE` or `E1-E2-…`. -/
def grammar_bracket_noSeason (content : Str) : Option Variant :=
  match parseNumberList content with
  | some ns => some (.noSeason ns [])
  | none => none

def isStripCh (c : Char) : Bool := c = ' ' || c = '-' || c = '.' || c = '_'

/-- Strip known scene-tag noise from a series-name candidate (§4.2): a
leading bracketed release-group tag is dropped. -/
def strip_scene_tag (s : Str) : Str :=
  match s with
  | '[' :: rest =>
    match breakAtQ ']' rest with
    | some p => p.2
    | none => s
  | _ => s

/-- De-punctuate and trim a candidate series name (§4.2: strip scene-tag
noise, replace `.`/`_` runs with spaces, trim separators); an empty
result yields `none`. -/
def seriesClean (s : Str) : Option Str :=
  let t := (strip_scene_tag s).map (fun c => if c = '.' ∨ c = '_' then ' ' else c)
  let t2 := ((t.dropWhile isStripCh).reverse.dropWhile isStripCh).reverse
  if t2 = [] then none else some t2

/-- A grammar: given the (input-transformed) filename, either the
candidate series name together with the matched variant, or no match. -/
abbrev Grammar := Str → Option (Option Str × Variant)

/-- Scan the bracketed segments of a filename left to right (fuel-driven
structural recursion so concrete values reduce in the kernel): at each
`[`, the content up to the next `]` is offered to the content grammar
`g`; the first `[` whose content `g` accepts wins, and the prefix before
it is returned as the series-name candidate. -/
def bracket_scan_fuel (g : Str → Option Variant) : Nat → Str → Option (Str × Variant)
  | 0, _ => none
  | fuel + 1, cs =>
    match breakAtQ '[' cs with
    | none => none
    | some p =>
      match (match breakAtQ ']' p.2 with
             | none => none
             | some q => g q.1) with
      | some v => some (p.1, v)
      | none =>
        match bracket_scan_fuel g fuel p.2 with
        | some r => some (p.1 ++ '[' :: r.1, r.2)
        | none => none

def bracket_scan (g : Str → Option Variant) (cs : Str) : Option (Str × Variant) :=
  bracket_scan_fuel g cs.length cs

theorem breakAtQ_some_length (x : Char) : ∀ (cs : Str) (p : Str × Str),
    breakAtQ x cs = some p → p.2.length < cs.length := by
  intro cs
  induction cs with
  | nil => intro p h; simp [breakAtQ] at h
  | cons c cs2 ih =>
    intro p h
    rw [breakAtQ] at h
    by_cases hc : c = x
    · rw [if_pos hc] at h
      cases h
      simp
    · rw [if_neg hc] at h
      cases hq : breakAtQ x cs2 with
      | none => rw [hq] at h; cases h
      | some q =>
        rw [hq] at h
        cases h
        have := ih q hq
        simp only [List.length_cons]
        omega

theorem bracket_scan_fuel_congr (g : Str → Option Variant) :
    ∀ f1 f2 (cs : Str), cs.length ≤ f1 → cs.length ≤ f2 →
      bracket_scan_fuel g f1 cs = bracket_scan_fuel g f2 cs := by
  intro f1
  induction f1 with
  | zero =>
    intro f2 cs h1 _
    have hnil : cs = [] := List.length_eq_zero.mp (by omega)
    subst hnil
    cases f2 with
    | zero => rfl
    | succ g2 => simp [bracket_scan_fuel, breakAtQ]
  | succ f ih =>
    intro f2 cs h1 h2
    cases f2 with
    | zero =>
      have hnil : cs = [] := List.length_eq_zero.mp (by omega)
      subst hnil
      simp [bracket_scan_fuel, breakAtQ]
    | succ g2 =>
      cases hb : breakAtQ '[' cs with
      | none => simp only [bracket_scan_fuel, hb]
      | some p =>
        have hlen := breakAtQ_some_length '[' cs p hb
        simp only [bracket_scan_fuel, hb]
        rw [ih g2 p.2 (by omega) (by omega)]

/-- The recursion equation of `bracket_scan`. -/
theorem bracket_scan_eq (g : Str → Option Variant) (cs : Str) :
    bracket_scan g cs =
      match breakAtQ '[' cs with
      | none => none
      | some p =>
        match (match breakAtQ ']' p.2 with
               | none => none
               | some q => g q.1) with
        | some v => some (p.1, v)
        | none =>
          match bracket_scan g p.2 with
          | some r => some (p.1 ++ '[' :: r.1, r.2)
          | none => none := by
  cases cs with
  | nil => rfl
  | cons c cs2 =>
    show bracket_scan_fuel g (cs2.length + 1) (c :: cs2) = _
    cases hb : breakAtQ '[' (c :: cs2) with
    | none => simp only [bracket_scan_fuel, hb]
    | some p =>
      have hlen := breakAtQ_some_length '[' (c :: cs2) p hb
      simp only [bracket_scan_fuel, hb]
      rw [bracket_scan_fuel_congr g cs2.length p.2.length p.2
        (by simp only [List.length_cons] at hlen; omega) (Nat.le_refl _)]
      rfl

/-- Lift a bracket-content grammar to a full-filename grammar: the first
`[`…`]` pair whose content the grammar accepts matches; the prefix
before it is the series-name candidate. -/
def bracket_grammar (g : Str → Option Variant) : Grammar := fun cs =>
  match bracket_scan g cs with
  | some r => some (seriesClean r.1, r.2)
  | none => none

/-- Scan for the first position where the positional matcher `m`
succeeds; the prefix before it is the series-name candidate. -/
def scanFor (m : Str → Option Variant) : Str → Option (Str × Variant)
  | [] => none
  | c :: cs =>
    match m (c :: cs) with
    | some v => some ([], v)
    | none =>
      match scanFor m cs with
      | some p => some (c :: p.1, p.2)
      | none => none

def scan_grammar (m : Str → Option Variant) : Grammar := fun cs =>
  match scanFor m cs with
  | some p => some (seriesClean p.1, p.2)
  | none => none

/-- Positional matcher for the `sNNeMM` season-episode shape. -/
def match_sep_at (cs : Str) : Option Variant :=
  match cs with
  | [] => none
  | c :: rest =>
    if c = 's' ∨ c = 'S' then
      let p := spanDigits rest
      if p.1.isEmpty then none
      else
        match p.2 with
        | [] => none
        | e :: rest2 =>
          if e = 'e' ∨ e = 'E' then
            let q := spanDigits rest2
            if q.1.isEmpty then none
            else some (.seasonEp (readNat p.1) [readNat q.1] [] none)
          else none
    else none

/-- Positional matcher for a dotted digit triple with run lengths
`l1.l2.l3`, returning the three digit runs. -/
def match_dotted_at (l1 l2 l3 : Nat) (cs : Str) : Option (Str × Str × Str) :=
  let p := spanDigits cs
  if p.1.length = l1 then
    match p.2 with
    | '.' :: r2 =>
      let q := spanDigits r2
      if q.1.length = l2 then
        match q.2 with
        | '.' :: r3 =>
          let w := spanDigits r3
          if w.1.length = l3 then some (p.1, q.1, w.1) else none
        | _ => none
      else none
    | _ => none
  else none

/-- Dotted `YYYY.MM.DD` date-stamp matcher. -/
def match_date_ymd (cs : Str) : Option Variant :=
  match match_dotted_at 4 2 2 cs with
  | some r => some (.dated ⟨readNat r.1, readNat r.2.1, readNat r.2.2⟩ none)
  | none => none

/-- Dotted `DD.MM.YYYY` date-stamp matcher. -/
def match_date_dmy (cs : Str) : Option Variant :=
  match match_dotted_at 2 2 4 cs with
  | some r => some (.dated ⟨readNat r.2.2, readNat r.2.1, readNat r.1⟩ none)
  | none => none

/-- Dotted `DD.MM.YY` date-stamp matcher: the two-digit year is routed
through the year resolver (§4.2). -/
def match_date_dmyy (current_year : Nat) (cs : Str) : Option Variant :=
  match match_dotted_at 2 2 2 cs with
  | some r => some (.dated ⟨intepret_year current_year r.2.2, readNat r.2.1, readNat r.1⟩ none)
  | none => none

/-- Positional matcher for the bare `eNN` no-season shape. -/
def match_eonly_at (cs : Str) : Option Variant :=
  match cs with
  | [] => none
  | c :: rest =>
    if c = 'e' ∨ c = 'E' then
      let p := spanDigits rest
      if p.1.isEmpty then none
      else some (.noSeason [readNat p.1] [])
    else none

/-- The ordered grammar list (§4.2); the order itself is the ambiguity
tie-break.  Bracketed (output-shaped) grammars come first, then the
`sNNeMM` shape, the date-stamp shapes, and the bare episode-only shape. -/
def grammars (current_year : Nat) : List Grammar :=
  [ bracket_grammar grammar_bracket_seasonEp,
    bracket_grammar grammar_bracket_date,
    bracket_grammar grammar_bracket_noSeason,
    scan_grammar match_sep_at,
    scan_grammar match_date_ymd,
    scan_grammar match_date_dmy,
    scan_grammar (match_date_dmyy current_year),
    scan_grammar match_eonly_at ]

/-- First grammar whose pattern matches wins — no scoring, no
backtracking across grammars. -/
def firstMatch : List Grammar → Str → Option (Option Str × Variant)
  | [], _ => none
  | g :: gs, cs =>
    match g cs with
    | some r => some r
    | none => firstMatch gs cs

inductive UnparsableFilenameError where
  | unparsable
deriving DecidableEq, Repr

/-- Extension of a filename: the last `.` and everything after it. -/
def extensionOf (cs : Str) : Str :=
  match breakAtQ '.' cs.reverse with
  | some p => '.' :: p.1.reverse
  | none => []

/-- Modelled from the spec: `FileParser.parse`.  The input transform
stage is applied to a working copy used only for matching — the stored
filename is never mutated (§4.2); then the ordered grammar list is tried
in order, and `UnparsableFilenameError` is raised when no grammar
matches. -/
def parse (current_year : Nat) (input_rules : List (Str → Str)) (filename : Str) :
    Except UnparsableFilenameError EpisodeIdentity :=
  let work := apply_replacements input_rules filename
  match firstMatch (grammars current_year) work with
  | some r =>
    .ok { seriesname := r.1
          fullfilename := filename
          extension := extensionOf filename
          filesize_in_bytes := 0
          variant := r.2 }
  | none => .error .unparsable

/-! ## Configuration

The configuration options read by `main.py`.  Format-string templates
(`%`-substitution) are modelled as functions from their substitution
record to the resulting string. -/

inductive SkipBehaviour where
  | warn
  | exit
deriving DecidableEq, Repr

/-- The substitution record of the `move_files_destination` and
`move_files_destination_alt` templates; `seasonnumber` is absent for
no-season episodes. -/
structure DestSubst where
  seriesname : Str
  seasonnumber : Option Nat
  episodenumbers : Str
  originalfilename : Str

/-- The substitution record of the `move_files_destination_date`
template. -/
structure DateSubst where
  seriesname : Str
  year : Nat
  month : Nat
  day : Nat
  originalfilename : Str

structure Config where
  move_files_only : Bool
  move_files_enable : Bool
  move_files_destination_is_filepath : Bool
  move_files_destination : Option (DestSubst → Str)
  move_files_destination_alt : DestSubst → Str
  move_files_destination_date : DateSubst → Str
  move_files_lowercase_destination : Bool
  move_files_confirmation : Bool
  windows_safe_filenames : Bool
  custom_filename_character_blacklist : Str
  replace_invalid_characters_with : Str
  overwrite_destination_on_rename : Bool
  overwrite_destination_on_move : Bool
  leave_symlink : Bool
  always_move : Bool
  always_rename : Bool
  batch : Bool
  dry_run : Bool
  skip_behaviour : SkipBehaviour
  skip_file_on_error : Bool
  force_name : Option Str
  output : OutputCfg

/-! ## Filesystem model and mutation wrappers -/

/-- The filesystem: the set of existing files and directories, as lists
of paths. -/
structure FS where
  files : List Str
  dirs : List Str
deriving DecidableEq, Repr

inductive FsError where
  | targetExists
deriving DecidableEq, Repr

/-- Modelled from the spec: `Renamer.new_path` of `tvnamer.files` in
rename mode is not among the sources.  §4.4: `apply_rename` fails with a
filesystem error if the target exists and overwrite is disabled;
otherwise the file takes its new name. -/
def renamer_new_path (fs : FS) (src dst : Str) (force : Bool) : Except FsError FS :=
  if fs.files.contains dst && !force then .error .targetExists
  else .ok { fs with files := dst :: fs.files.erase src }

/-- Modelled from the spec: `Renamer.new_path` in move mode.  §4.4: fails
when the target exists and overwrite-on-move is disabled; with
`get_path_preview` only the path is computed, nothing moves. -/
def renamer_move (fs : FS) (src dst : Str) (force preview : Bool) : Except FsError FS :=
  if preview then .ok fs
  else if fs.files.contains dst && !force then .error .targetExists
  else .ok { fs with files := dst :: fs.files.erase src }

/-- Outcome of `do_rename_file`. -/
inductive RenameOutcome where
  | renamed
  | warnedSkip
  | aborted
deriving DecidableEq, Repr

/-- `do_rename_file` from `main.py`: renames via `Renamer.new_path` with
`force` from `overwrite_destination_on_rename`; an `OSError` either
raises `SkipBehaviourAbort` (skip behaviour `exit`) or warns and skips. -/
def do_rename_file (cfg : Config) (fs : FS) (src new_name : Str) : FS × RenameOutcome :=
  match renamer_new_path fs src new_name cfg.overwrite_destination_on_rename with
  | .ok fs2 => (fs2, .renamed)
  | .error _ =>
      if cfg.skip_behaviour = .exit then (fs, .aborted) else (fs, .warnedSkip)

/-- Outcome of `do_move_file`. -/
inductive MoveOutcome where
  | valueError     -- one of the three `ValueError` guards fired
  | typeError      -- `os.path.exists(None)` when `dest_filepath` is absent
  | moved
  | warnedSkip
  | aborted
deriving DecidableEq, Repr

/-- The post-guard body of `do_move_file`: create the destination path
when missing (`os.makedirs(..., exist_ok=True)`), then move via
`Renamer.new_path`, warning or aborting on an `OSError`. -/
def do_move_file_core (cfg : Config) (fs : FS) (src p : Str) (get_path_preview : Bool) :
    FS × MoveOutcome :=
  let fs1 := if fs.dirs.contains p then fs else { fs with dirs := p :: fs.dirs }
  match renamer_move fs1 src p cfg.overwrite_destination_on_move get_path_preview with
  | .ok fs2 => (fs2, .moved)
  | .error _ =>
      if cfg.skip_behaviour = .exit then (fs1, .aborted) else (fs1, .warnedSkip)

/-- `do_move_file` from `main.py`: three `ValueError` guards (argument
shape, `move_files_enable`, `move_files_destination`), then the
destination-path existence check and `os.makedirs`, then
`Renamer.new_path`.  The existence check runs on `dest_filepath`
unconditionally, so a call that passed only `dest_dir` reaches
`os.path.exists(None)`, which raises `TypeError`. -/
def do_move_file (cfg : Config) (fs : FS) (src : Str)
    (dest_dir dest_filepath : Option Str) (get_path_preview : Bool) : FS × MoveOutcome :=
  if ¬ ((dest_dir.isNone ∧ dest_filepath.isSome) ∨ (dest_dir.isSome ∧ dest_filepath.isNone)) then
    (fs, .valueError)
  else if ¬ cfg.move_files_enable then (fs, .valueError)
  else if cfg.move_files_destination.isNone then (fs, .valueError)
  else
    match dest_filepath with
    | none => (fs, .typeError)
    | some p => do_move_file_core cfg fs src p get_path_preview

/-! ## Destination resolution -/

/-- The sanitizer configuration that `wrap_validfname` in `main.py`
derives from the global config. -/
def moveSanitizeCfg (cfg : Config) : SanitizeCfg :=
  { windows_safe := cfg.windows_safe_filenames
    custom_blacklist := cfg.custom_filename_character_blacklist
    replace_with := cfg.replace_invalid_characters_with }

/-- `wrap_validfname` from `main.py`: optional lowercasing, then
`make_valid_filename` with the configured blacklist options. -/
def wrap_validfname (cfg : Config) (fname : Str) : Str :=
  let f := if cfg.move_files_lowercase_destination then lowercase_str fname else fname
  make_valid_filename (moveSanitizeCfg cfg) f

/-- The default-argument sanitizer used by the dated branch of
`get_move_destination` (`make_valid_filename(episode.seriesname)`). -/
def default_sanitize : SanitizeCfg :=
  { windows_safe := false, custom_blacklist := [], replace_with := [] }

/-- `get_move_destination` from `main.py`.  Dated episodes expand the
date template; no-season episodes expand `move_files_destination`;
season episodes expand both `move_files_destination` and
`move_files_destination_alt` and pick the alternate when that directory
already exists on disk (`exists_dir`).  A missing
`move_files_destination` template makes the `%`-substitution crash in
Python; this is modelled as `none`. -/
def get_move_destination (cfg : Config) (exists_dir : Str → Bool) (e : EpisodeIdentity) :
    Option Str :=
  match e.variant with
  | .dated d _ =>
      some (cfg.move_files_destination_date
        { seriesname := make_valid_filename default_sanitize (e.seriesname.getD [])
          year := d.year, month := d.month, day := d.day
          originalfilename := e.fullfilename })
  | .noSeason eps _ =>
      match cfg.move_files_destination with
      | none => none
      | some t =>
          some (t { seriesname := wrap_validfname cfg (e.seriesname.getD [])
                    seasonnumber := none
                    episodenumbers := wrap_validfname cfg (format_episode_numbers eps)
                    originalfilename := e.fullfilename })
  | .seasonEp s eps _ _ =>
      match cfg.move_files_destination with
      | none => none
      | some t =>
          let sub : DestSubst :=
            { seriesname := wrap_validfname cfg (e.seriesname.getD [])
              seasonnumber := some s
              episodenumbers := wrap_validfname cfg (format_episode_numbers eps)
              originalfilename := e.fullfilename }
          let dest_dir := t sub
          let dest_dir_alt := cfg.move_files_destination_alt sub
          some (if exists_dir dest_dir_alt then dest_dir_alt else dest_dir)

/-! ## Enrichment -/

/-- Data returned by the metadata client (§6). -/
structure EnrichData where
  corrected_seriesname : Str
  episode_names : List (Nat × Str)
  episode_name : Option Str
  absolute_numbers : Option (List Nat)

inductive MetadataError where
  | showNotFound
  | seasonNotFound
  | episodeNotFound
  | episodeNameNotFound
  | dataRetrievalError
deriving DecidableEq, Repr

/-- Modelled from the spec: `populate_from_tvdb` of `tvnamer.data` is not
among the sources.  §3: success fills the canonical series name, the
per-episode name mapping and the absolute episode numbers — the only
fields enrichment may write; any failure raises and leaves the identity
unchanged. -/
def populate_from_tvdb (e : EpisodeIdentity)
    (lookup : Except MetadataError EnrichData) : EpisodeIdentity :=
  match lookup with
  | .error _ => e
  | .ok d =>
      { e with
        seriesname := some d.corrected_seriesname
        variant :=
          match e.variant with
          | .seasonEp s eps _ _ => .seasonEp s eps d.episode_names d.absolute_numbers
          | .dated dt _ => .dated dt d.episode_name
          | .noSeason eps _ => .noSeason eps d.episode_names }

/-- The enrichment step of `process_file` in `main.py`: `force_name`
overwrites the series name first, then `populate_from_tvdb` runs; its
exception handlers warn or abort without touching the episode. -/
def process_enrich (cfg : Config) (e : EpisodeIdentity)
    (lookup : Except MetadataError EnrichData) : EpisodeIdentity :=
  let e1 := match cfg.force_name with
    | some n => { e with seriesname := some n }
    | none => e
  populate_from_tvdb e1 lookup

/-! ## The per-file mutation trace of `process_file`

`process_file` (lines 319–414 of `main.py`) decides which mutation calls
(`do_rename_file`, `do_move_file`, `do_delete_path`) to issue for one
file.  The trace records the issued calls with their arguments; user
answers to the two `confirm` prompts are parameters. -/

/-- A mutation call issued by `process_file`. -/
inductive MutCall where
  | renameCall (new_name : Str)
  | moveCall (dest_dir : Option Str) (dest_filepath : Option Str) (get_path_preview : Bool)
  | deletePathCall
deriving DecidableEq, Repr

inductive PfExit where
  | normal
  | userAbort
deriving DecidableEq, Repr

def MutCall.isMove : MutCall → Bool
  | .moveCall _ _ _ => true
  | _ => false

/-- The move stage of `process_file` (lines 393–414), entered when
`should_rename` is set: preview move, optional confirmation, actual
move (issued with the destination as the positional `dest_dir`). -/
def move_stage (cfg : Config) (exists_dir : Str → Bool) (e : EpisodeIdentity)
    (acc : List MutCall) (ansMove : Char) : List MutCall × PfExit :=
  if cfg.move_files_enable then
    let new_path := get_move_destination cfg exists_dir e
    if cfg.dry_run then (acc, .normal)
    else
      let acc2 := acc ++ [if cfg.move_files_destination_is_filepath then
                            MutCall.moveCall none new_path true
                          else MutCall.moveCall new_path none true]
      let ans := if ¬ cfg.batch ∧ cfg.move_files_confirmation then ansMove else 'y'
      if ans = 'y' then (acc2 ++ [MutCall.moveCall new_path none false], .normal)
      else if ans = 'q' then (acc2, .userAbort)
      else (acc2, .normal)
  else (acc, .normal)

/-- The mutation calls `process_file` issues for one (already enriched)
episode.  Mirrors lines 319–414 of `main.py`: `move_files_only` skips
renaming; otherwise the freshly generated name is compared with the
current one — on equality `should_rename` is set without issuing a
rename; otherwise dry-run returns, `always_rename` renames (and moves
when enabled), and the interactive path renames on answer `y`/`a`,
quits on `q`, skips otherwise. -/
def process_file_calls (cfg : Config) (exists_dir : Str → Bool) (e : EpisodeIdentity)
    (ansRename ansMove : Char) : List MutCall × PfExit :=
  if cfg.move_files_only then
    move_stage cfg exists_dir e [] ansMove
  else
    let new_name := generate_filename cfg.output e
    if new_name = e.fullfilename then
      move_stage cfg exists_dir e [] ansMove
    else if cfg.dry_run then
      ([], .normal)
    else if cfg.always_rename then
      let acc := [MutCall.renameCall new_name]
      if cfg.move_files_enable then
        if cfg.move_files_destination_is_filepath then
          (acc ++ [MutCall.moveCall none (get_move_destination cfg exists_dir e) false,
                   MutCall.deletePathCall], .normal)
        else
          (acc ++ [MutCall.moveCall (get_move_destination cfg exists_dir e) none false], .normal)
      else (acc, .normal)
    else
      if ansRename = 'q' then ([], .userAbort)
      else if ansRename = 'a' ∨ ansRename = 'y' then
        move_stage cfg exists_dir e [MutCall.renameCall new_name] ansMove
      else ([], .normal)

/-! ## Batch processing order and abort semantics -/

/-- Stable insertion into a sorted list (an element goes before the
first entry it is `le`-below, preserving the order of ties). -/
def insertSorted (le : α → α → Bool) (x : α) : List α → List α
  | [] => [x]
  | y :: ys => if le x y then x :: y :: ys else y :: insertSorted le x ys

/-- Stable insertion sort, modelling Python's stable `list.sort`. -/
def insertionSort (le : α → α → Bool) : List α → List α
  | [] => []
  | x :: xs => insertSorted le x (insertionSort le xs)

/-- Lexicographic order on strings by character code. -/
def strLe : Str → Str → Bool
  | [], _ => true
  | _ :: _, [] => false
  | a :: as, b :: bs =>
    if a < b then true
    else if b < a then false
    else strLe as bs

/-- Lexicographic order on lists of naturals. -/
def natListLe : List Nat → List Nat → Bool
  | [], _ => true
  | _ :: _, [] => false
  | a :: as, b :: bs =>
    if a < b then true
    else if b < a then false
    else natListLe as bs

/-- Lexicographic order on a `(series name, season, episode numbers)`
sort key. -/
def keyLe (k1 k2 : Str × Nat × List Nat) : Bool :=
  if k1.1 = k2.1 then
    if k1.2.1 = k2.2.1 then natListLe k1.2.2 k2.2.2
    else decide (k1.2.1 ≤ k2.2.1)
  else strLe k1.1 k2.1

/-- Modelled from the spec: `sortable_info` of `tvnamer.data` is not
among the sources; the spec itself does not describe it, but the sort
call in `main.py` (line 502) documents it as sorting the episodes "by
series name, season and episode number".  Dated episodes sort by their
date triple in the episode-numbers position. -/
def sortable_info (e : EpisodeIdentity) : Str × Nat × List Nat :=
  match e.variant with
  | .seasonEp s eps _ _ => (e.seriesname.getD [], s, eps)
  | .dated d _ => (e.seriesname.getD [], 0, [d.year, d.month, d.day])
  | .noSeason eps _ => (e.seriesname.getD [], 0, eps)

/-- Per-file batch outcome: processed successfully, skipped by a warn
policy, or an error that escalates to `SkipBehaviourAbort`. -/
inductive FileOutcome where
  | success
  | skip
  | abortError
deriving DecidableEq, Repr

/-- One discovered file in a batch: its path, its parsed identity, and
what processing it will meet. -/
structure BatchFile where
  path : Str
  ident : EpisodeIdentity
  outcome : FileOutcome

def fileLe (a b : BatchFile) : Bool :=
  keyLe (sortable_info a.ident) (sortable_info b.ident)

def pathLe (a b : BatchFile) : Bool := strLe a.path b.path

/-- The processing order of `tvnamer` in `main.py`: the parsed episodes
are sorted (stably) by `sortable_info` before the per-file loop runs. -/
def processing_order (files : List BatchFile) : List BatchFile :=
  insertionSort fileLe files

/-- Run the per-file loop over an ordered batch: a successful file is
touched, a skipped file is left untouched, and an `abortError` raises
`SkipBehaviourAbort`, ending the batch at once. -/
def run_batch_touched : List BatchFile → List Str
  | [] => []
  | f :: rest =>
    match f.outcome with
    | .success => f.path :: run_batch_touched rest
    | .skip => run_batch_touched rest
    | .abortError => []

/-- The paths the whole batch touches. -/
def tvnamer_batch (files : List BatchFile) : List Str :=
  run_batch_touched (processing_order files)

/-- A concrete configuration used by witnesses: batch mode with
`always_rename`, warn-style skip behaviour, everything else at the
defaults. -/
def testConfig : Config :=
  { move_files_only := false
    move_files_enable := false
    move_files_destination_is_filepath := false
    move_files_destination := some (fun sub => sub.seriesname)
    move_files_destination_alt := fun sub => sub.seriesname ++ ("-alt").toList
    move_files_destination_date := fun sub => sub.seriesname
    move_files_lowercase_destination := false
    move_files_confirmation := true
    windows_safe_filenames := false
    custom_filename_character_blacklist := []
    replace_invalid_characters_with := []
    overwrite_destination_on_rename := false
    overwrite_destination_on_move := false
    leave_symlink := false
    always_move := false
    always_rename := true
    batch := true
    dry_run := false
    skip_behaviour := .warn
    skip_file_on_error := true
    force_name := none
    output := defaultOutputCfg }

/-! ## General lemmas -/

theorem getD_digitVal_le (c : Char) : (digitVal c).getD 0 ≤ 9 := by
  unfold digitVal
  split_ifs <;> simp

theorem readNat_aux (s : Str) : ∀ acc : Nat,
    s.foldl (fun a c => 10 * a + ((digitVal c).getD 0)) acc < (acc + 1) * 10 ^ s.length := by
  induction s with
  | nil => intro acc; simp
  | cons c cs ih =>
    intro acc
    have h1 := ih (10 * acc + ((digitVal c).getD 0))
    have h2 := getD_digitVal_le c
    have h3 : (10 * acc + ((digitVal c).getD 0) + 1) * 10 ^ cs.length ≤
        ((acc + 1) * 10) * 10 ^ cs.length := Nat.mul_le_mul_right _ (by omega)
    simp only [List.foldl_cons, List.length_cons]
    calc cs.foldl (fun a c => 10 * a + ((digitVal c).getD 0)) (10 * acc + ((digitVal c).getD 0))
        < (10 * acc + ((digitVal c).getD 0) + 1) * 10 ^ cs.length := h1
      _ ≤ ((acc + 1) * 10) * 10 ^ cs.length := h3
      _ = (acc + 1) * 10 ^ (cs.length + 1) := by ring

theorem readNat_lt (s : Str) : readNat s < 10 ^ s.length := by
  have := readNat_aux s 0
  simpa [readNat] using this

/-! ## Claim theorems -/

/-- C3: for every string of exactly two ASCII digits, `intepret_year`
returns a year in `[1900, 1999] ∪ [2000, 2099]`, computed by the
rolling-pivot policy `pivot = (current_year mod 100) + 10` (with
wraparound at 100); the result is a pure function of the fixed current
year and the input. -/
theorem claim_C3_two_digit_year_resolution (current_year : Nat) (d : Str)
    (hlen : d.length = 2) (hdig : allDigits d = true) :
    ((1900 ≤ intepret_year current_year d ∧ intepret_year current_year d ≤ 1999) ∨
      (2000 ≤ intepret_year current_year d ∧ intepret_year current_year d ≤ 2099)) ∧
    intepret_year current_year d =
      (if readNat d ≤ (current_year % 100 + 10) % 100
       then 2000 + readNat d else 1900 + readNat d) := by
  have hv : readNat d < 100 := by
    have := readNat_lt d
    rw [hlen] at this
    omega
  have hE : intepret_year current_year d =
      if readNat d ≤ (current_year % 100 + 10) % 100
      then 2000 + readNat d else 1900 + readNat d := rfl
  refine ⟨?_, hE⟩
  rw [hE]
  split <;> omega

theorem claim_C3_witness :
    ((1900 ≤ intepret_year 2021 (("99").toList) ∧
        intepret_year 2021 (("99").toList) ≤ 1999) ∨
      (2000 ≤ intepret_year 2021 (("99").toList) ∧
        intepret_year 2021 (("99").toList) ≤ 2099)) ∧
    intepret_year 2021 (("99").toList) =
      (if readNat (("99").toList) ≤ (2021 % 100 + 10) % 100
       then 2000 + readNat (("99").toList) else 1900 + readNat (("99").toList)) :=
  claim_C3_two_digit_year_resolution 2021 (("99").toList) (by decide) (by decide)

/-- C10: `do_move_file` raises `ValueError` — with no filesystem change —
when not exactly one of `dest_dir`/`dest_filepath` is given, or
`move_files_enable` is off, or `move_files_destination` is unset; the
guards run before the directory-creation and move code. -/
theorem claim_C10_do_move_file_guards (cfg : Config) (fs : FS) (src : Str)
    (dest_dir dest_filepath : Option Str) (pv : Bool)
    (h : ¬ ((dest_dir.isNone ∧ dest_filepath.isSome) ∨
            (dest_dir.isSome ∧ dest_filepath.isNone)) ∨
         cfg.move_files_enable = false ∨ cfg.move_files_destination = none) :
    do_move_file cfg fs src dest_dir dest_filepath pv = (fs, .valueError) := by
  unfold do_move_file
  by_cases h1 : ¬ ((dest_dir.isNone ∧ dest_filepath.isSome) ∨
      (dest_dir.isSome ∧ dest_filepath.isNone))
  · rw [if_pos h1]
  · rw [if_neg h1]
    by_cases h2 : ¬ cfg.move_files_enable = true
    · rw [if_pos h2]
    · rw [if_neg h2]
      by_cases h3 : cfg.move_files_destination.isNone = true
      · rw [if_pos h3]
      · exfalso
        rcases h with h | h | h
        · exact h1 h
        · exact h2 (by simp [h])
        · exact h3 (by simp [h])

theorem claim_C10_witness :
    do_move_file testConfig { files := [], dirs := [] } (("a.avi").toList)
      none none false = ({ files := [], dirs := [] }, .valueError) :=
  claim_C10_do_move_file_guards testConfig { files := [], dirs := [] }
    (("a.avi").toList) none none false (Or.inl (by decide))

/-- C5: when the rename target already exists and
`overwrite_destination_on_rename` is off (the default), `do_rename_file`
leaves the filesystem unchanged and the failure is surfaced (a warning
or a `SkipBehaviourAbort`), never reported as a successful rename. -/
theorem claim_C5_rename_collision (cfg : Config) (fs : FS) (src dst : Str)
    (hdst : fs.files.contains dst = true)
    (hforce : cfg.overwrite_destination_on_rename = false) :
    (do_rename_file cfg fs src dst).1 = fs ∧
    (do_rename_file cfg fs src dst).2 ≠ .renamed ∧
    ((do_rename_file cfg fs src dst).2 = .warnedSkip ∨
      (do_rename_file cfg fs src dst).2 = .aborted) := by
  unfold do_rename_file renamer_new_path
  rw [hforce, hdst]
  by_cases h : cfg.skip_behaviour = .exit <;> simp [h]

theorem claim_C5_witness :
    ((do_rename_file testConfig
        { files := [("Scrubs - [01x01] - My First Day.avi").toList,
                    ("scrubs - [01x01].avi").toList], dirs := [] }
        (("scrubs - [01x01].avi").toList)
        (("Scrubs - [01x01] - My First Day.avi").toList)).1 =
      { files := [("Scrubs - [01x01] - My First Day.avi").toList,
                  ("scrubs - [01x01].avi").toList], dirs := [] }) ∧
    ((do_rename_file testConfig
        { files := [("Scrubs - [01x01] - My First Day.avi").toList,
                    ("scrubs - [01x01].avi").toList], dirs := [] }
        (("scrubs - [01x01].avi").toList)
        (("Scrubs - [01x01] - My First Day.avi").toList)).2 ≠ .renamed) ∧
    ((do_rename_file testConfig
        { files := [("Scrubs - [01x01] - My First Day.avi").toList,
                    ("scrubs - [01x01].avi").toList], dirs := [] }
        (("scrubs - [01x01].avi").toList)
        (("Scrubs - [01x01] - My First Day.avi").toList)).2 = .warnedSkip ∨
      (do_rename_file testConfig
        { files := [("Scrubs - [01x01] - My First Day.avi").toList,
                    ("scrubs - [01x01].avi").toList], dirs := [] }
        (("scrubs - [01x01].avi").toList)
        (("Scrubs - [01x01] - My First Day.avi").toList)).2 = .aborted) :=
  claim_C5_rename_collision testConfig _ _ _ (by decide) (by decide)

/-- C7: enrichment may write only the series name, the per-episode name
mapping and the absolute episode numbers; the identity core (variant
tag, season number, episode numbers, air date) and the file fields are
untouched, and a failed lookup leaves the variant entirely unchanged. -/
theorem claim_C7_enrichment_only_writes_names (cfg : Config) (e : EpisodeIdentity)
    (lookup : Except MetadataError EnrichData) :
    (process_enrich cfg e lookup).variant.core = e.variant.core ∧
    (process_enrich cfg e lookup).fullfilename = e.fullfilename ∧
    (process_enrich cfg e lookup).extension = e.extension ∧
    (process_enrich cfg e lookup).filesize_in_bytes = e.filesize_in_bytes ∧
    (∀ err, lookup = .error err → (process_enrich cfg e lookup).variant = e.variant) := by
  obtain ⟨sn, ff, ext, fsz, v⟩ := e
  unfold process_enrich populate_from_tvdb
  cases lookup <;> cases cfg.force_name <;> cases v <;>
    simp [Variant.core]

theorem claim_C7_witness :
    (process_enrich testConfig
        { seriesname := some (("scrubs").toList)
          fullfilename := ("scrubs.s01e01.avi").toList
          extension := (".avi").toList
          filesize_in_bytes := 7
          variant := .seasonEp 1 [1] [] none }
        (.error .showNotFound)).variant =
      Variant.seasonEp 1 [1] [] none :=
  (claim_C7_enrichment_only_writes_names testConfig _ _).2.2.2.2 .showNotFound rfl

/-- C1: `parse` is total and deterministic: for every filename it either
returns one identity (whose variant is one of the three shapes) or fails
with `UnparsableFilenameError`, never both, and repeated calls agree. -/
theorem claim_C1_parse_total_deterministic (current_year : Nat)
    (rules : List (Str → Str)) (f : Str) :
    ((∃ e, parse current_year rules f = .ok e) ∨
      parse current_year rules f = .error .unparsable) ∧
    (¬ ((∃ e, parse current_year rules f = .ok e) ∧
        parse current_year rules f = .error .unparsable)) ∧
    (∀ e, parse current_year rules f = .ok e →
      (∃ s eps nm ab, e.variant = .seasonEp s eps nm ab) ∨
      (∃ d nm, e.variant = .dated d nm) ∨
      (∃ eps nm, e.variant = .noSeason eps nm)) ∧
    (∀ r1 r2, parse current_year rules f = r1 → parse current_year rules f = r2 →
      r1 = r2) := by
  refine ⟨?_, ?_, ?_, ?_⟩
  · cases h : parse current_year rules f with
    | ok e => exact .inl ⟨e, rfl⟩
    | error err => cases err; exact .inr rfl
  · rintro ⟨⟨e, he⟩, herr⟩
    rw [he] at herr
    exact Except.noConfusion herr
  · intro e _
    cases h : e.variant with
    | seasonEp s eps nm ab => exact .inl ⟨s, eps, nm, ab, rfl⟩
    | dated d nm => exact .inr (.inl ⟨d, nm, rfl⟩)
    | noSeason eps nm => exact .inr (.inr ⟨eps, nm, rfl⟩)
  · intro r1 r2 h1 h2
    rw [← h1, ← h2]

theorem claim_C1_witness :
    (∃ e, parse 2021 [] (("scrubs.s01e01.avi").toList) = .ok e) ∨
      parse 2021 [] (("scrubs.s01e01.avi").toList) = .error .unparsable :=
  (claim_C1_parse_total_deterministic 2021 [] (("scrubs.s01e01.avi").toList)).1

theorem mvf_no_blacklisted (cfg : SanitizeCfg) (s : Str)
    (hrepl : ∀ c ∈ cfg.replace_with, isBlacklisted cfg c = false) :
    ∀ c ∈ make_valid_filename cfg s, isBlacklisted cfg c = false := by
  intro c hc
  unfold make_valid_filename at hc
  rw [List.mem_flatten] at hc
  obtain ⟨p, hp, hcp⟩ := hc
  rw [List.mem_map] at hp
  obtain ⟨a, _, rfl⟩ := hp
  by_cases h : isBlacklisted cfg a = true
  · rw [if_pos h] at hcp
    exact hrepl c hcp
  · rw [if_neg h] at hcp
    simp only [List.mem_singleton] at hcp
    subst hcp
    simpa using h

/-- C4: sanitization runs last in the output transform stage, so for
every identity, every list of custom replacement rules and every active
blacklist, the generated filename contains no blacklisted character —
in particular none reintroduced by a replacement rule's text — provided
the sanitizer's own replacement string is itself clean. -/
theorem claim_C4_sanitization_runs_last (cfg : OutputCfg) (e : EpisodeIdentity)
    (hrepl : ∀ c ∈ cfg.san.replace_with, isBlacklisted cfg.san c = false) :
    ∀ c ∈ generate_filename cfg e, isBlacklisted cfg.san c = false := by
  intro c hc
  unfold generate_filename output_transform at hc
  exact mvf_no_blacklisted cfg.san _ hrepl c hc

/-! ### C6: processing order and abort semantics -/

theorem insertSorted_perm (le : α → α → Bool) (x : α) (l : List α) :
    (insertSorted le x l).Perm (x :: l) := by
  induction l with
  | nil => exact List.Perm.refl _
  | cons y ys ih =>
    rw [insertSorted]
    by_cases h : le x y = true
    · rw [if_pos h]
    · rw [if_neg h]
      exact List.Perm.trans (List.Perm.cons y ih) (List.Perm.swap x y ys)

theorem insertionSort_perm (le : α → α → Bool) (l : List α) :
    (insertionSort le l).Perm l := by
  induction l with
  | nil => exact List.Perm.refl _
  | cons x xs ih =>
    rw [insertionSort]
    exact List.Perm.trans (insertSorted_perm le x (insertionSort le xs))
      (List.Perm.cons x ih)

theorem insertSorted_head (le : α → α → Bool) (x : α) (l : List α) :
    (insertSorted le x l).head? = some x ∨ (insertSorted le x l).head? = l.head? := by
  cases l with
  | nil => left; rfl
  | cons y ys =>
    rw [insertSorted]
    by_cases h : le x y = true
    · rw [if_pos h]; left; rfl
    · rw [if_neg h]; right; rfl

theorem chain'_insertSorted (le : α → α → Bool)
    (htot : ∀ a b, le a b = true ∨ le b a = true) (x : α) (l : List α)
    (h : List.Chain' (fun a b => le a b = true) l) :
    List.Chain' (fun a b => le a b = true) (insertSorted le x l) := by
  induction l with
  | nil => simp [insertSorted]
  | cons y ys ih =>
    rw [insertSorted]
    by_cases hxy : le x y = true
    · rw [if_pos hxy]
      exact List.Chain'.cons hxy h
    · rw [if_neg hxy]
      have hyx : le y x = true := (htot x y).resolve_left (by simpa using hxy)
      rw [List.chain'_cons']
      refine ⟨?_, ih h.tail⟩
      intro b hb
      rcases insertSorted_head le x ys with hh | hh
      · rw [hh] at hb
        simp only [Option.mem_def, Option.some_inj] at hb
        subst hb
        exact hyx
      · rw [hh] at hb
        exact (List.chain'_cons'.mp h).1 b hb

theorem chain'_insertionSort (le : α → α → Bool)
    (htot : ∀ a b, le a b = true ∨ le b a = true) (l : List α) :
    List.Chain' (fun a b => le a b = true) (insertionSort le l) := by
  induction l with
  | nil => simp [insertionSort]
  | cons x xs ih =>
    rw [insertionSort]
    exact chain'_insertSorted le htot x _ ih

theorem strLe_total (a : Str) : ∀ b : Str, strLe a b = true ∨ strLe b a = true := by
  induction a with
  | nil => intro b; left; rfl
  | cons x xs ih =>
    intro b
    cases b with
    | nil => right; rfl
    | cons y ys =>
      rw [strLe, strLe]
      by_cases h1 : x < y
      · left; rw [if_pos h1]
      · by_cases h2 : y < x
        · right; rw [if_pos h2]
        · rcases ih ys with h | h
          · left; rw [if_neg h1, if_neg h2]; exact h
          · right; rw [if_neg h2, if_neg h1]; exact h

theorem natListLe_total (a : List Nat) : ∀ b : List Nat,
    natListLe a b = true ∨ natListLe b a = true := by
  induction a with
  | nil => intro b; left; rfl
  | cons x xs ih =>
    intro b
    cases b with
    | nil => right; rfl
    | cons y ys =>
      rw [natListLe, natListLe]
      by_cases h1 : x < y
      · left; rw [if_pos h1]
      · by_cases h2 : y < x
        · right; rw [if_pos h2]
        · rcases ih ys with h | h
          · left; rw [if_neg h1, if_neg h2]; exact h
          · right; rw [if_neg h2, if_neg h1]; exact h

theorem keyLe_total (k1 k2 : Str × Nat × List Nat) :
    keyLe k1 k2 = true ∨ keyLe k2 k1 = true := by
  unfold keyLe
  by_cases h1 : k1.1 = k2.1
  · rw [if_pos h1, if_pos h1.symm]
    by_cases h2 : k1.2.1 = k2.2.1
    · rw [if_pos h2, if_pos h2.symm]
      exact natListLe_total k1.2.2 k2.2.2
    · rw [if_neg h2, if_neg (fun h => h2 h.symm)]
      rcases Nat.le_total k1.2.1 k2.2.1 with h | h
      · left; simpa using h
      · right; simpa using h
  · rw [if_neg h1, if_neg (fun h => h1 h.symm)]
    exact strLe_total k1.1 k2.1

theorem fileLe_total (a b : BatchFile) : fileLe a b = true ∨ fileLe b a = true :=
  keyLe_total (sortable_info a.ident) (sortable_info b.ident)

theorem run_batch_touched_subset (l : List BatchFile) :
    ∀ p ∈ run_batch_touched l, p ∈ l.map (fun f => f.path) := by
  induction l with
  | nil => intro p hp; simp [run_batch_touched] at hp
  | cons f fs ih =>
    intro p hp
    rw [run_batch_touched] at hp
    cases hf : f.outcome <;> rw [hf] at hp
    · rcases hp with _ | hp
      · simp
      · simp only [List.map_cons, List.mem_cons]
        exact Or.inr (ih p (by assumption))
    · simp only [List.map_cons, List.mem_cons]
      exact Or.inr (ih p hp)
    · simp at hp

theorem touched_before_abort (f : BatchFile) (hf : f.outcome = .abortError) :
    ∀ (pre post : List BatchFile),
      ∀ p ∈ run_batch_touched (pre ++ f :: post), p ∈ pre.map (fun g => g.path) := by
  intro pre
  induction pre with
  | nil =>
    intro post p hp
    rw [List.nil_append, run_batch_touched, hf] at hp
    simp at hp
  | cons g gs ih =>
    intro post p hp
    rw [List.cons_append, run_batch_touched] at hp
    cases hg : g.outcome <;> rw [hg] at hp
    · rcases hp with _ | hp
      · simp
      · simp only [List.map_cons, List.mem_cons]
        exact Or.inr (ih post p (by assumption))
    · simp only [List.map_cons, List.mem_cons]
      exact Or.inr (ih post p hp)
    · simp at hp

theorem skip_not_touched (l : List BatchFile)
    (hnd : (l.map (fun f => f.path)).Nodup) (g : BatchFile) (hg : g ∈ l)
    (hsk : g.outcome = .skip) : g.path ∉ run_batch_touched l := by
  induction l with
  | nil => simp at hg
  | cons f fs ih =>
    simp only [List.map_cons, List.nodup_cons] at hnd
    rcases List.mem_cons.mp hg with rfl | hg2
    · rw [run_batch_touched, hsk]
      intro hmem
      exact hnd.1 (run_batch_touched_subset fs _ hmem)
    · rw [run_batch_touched]
      cases hf : f.outcome
      · intro hmem
        rcases List.mem_cons.mp hmem with heq | hmem
        · exact hnd.1 (List.mem_map.mpr ⟨g, hg2, heq⟩)
        · exact ih hnd.2 hg2 hmem
      · exact ih hnd.2 hg2
      · simp

/-- C6 counterexample files: the same series in two directories; the
path-alphabetically first file carries the later episode. -/
def bfLateEpisode : BatchFile :=
  { path := ("dir1/scrubs.s01e02.avi").toList
    ident := { seriesname := some (("scrubs").toList)
               fullfilename := ("scrubs.s01e02.avi").toList
               extension := (".avi").toList
               filesize_in_bytes := 0
               variant := .seasonEp 1 [2] [] none }
    outcome := .success }

def bfEarlyEpisode : BatchFile :=
  { path := ("dir2/scrubs.s01e01.avi").toList
    ident := { seriesname := some (("scrubs").toList)
               fullfilename := ("scrubs.s01e01.avi").toList
               extension := (".avi").toList
               filesize_in_bytes := 0
               variant := .seasonEp 1 [1] [] none }
    outcome := .success }

/-- C6 counterexample: the batch is processed in `sortable_info` order
(series name, season, episode numbers), not alphabetically by
discovered path: here the path-alphabetically later file is processed
first. -/
theorem claim_C6_counterexample :
    strLe bfLateEpisode.path bfEarlyEpisode.path = true ∧
    bfLateEpisode.path ≠ bfEarlyEpisode.path ∧
    (processing_order [bfLateEpisode, bfEarlyEpisode]).map (fun f => f.path) =
      [bfEarlyEpisode.path, bfLateEpisode.path] := by
  refine ⟨by decide, by decide, by decide⟩

/-- C6 amended: files are processed in `sortable_info` order (series
name, season, episode numbers) — the processing order is a permutation
of the batch sorted by that key — and abort/skip semantics hold: once a
file escalates an error, every file after it in processing order is
left untouched, and skipped files are left untouched. -/
theorem claim_C6_amended_order_and_abort (files : List BatchFile)
    (hnd : (files.map (fun f => f.path)).Nodup) :
    (processing_order files).Perm files ∧
    List.Chain' (fun a b => fileLe a b = true) (processing_order files) ∧
    (∀ pre f post, processing_order files = pre ++ f :: post →
      f.outcome = .abortError → ∀ g ∈ post, g.path ∉ tvnamer_batch files) ∧
    (∀ g ∈ files, g.outcome = .skip → g.path ∉ tvnamer_batch files) := by
  have hperm : (processing_order files).Perm files := insertionSort_perm fileLe files
  have hpm : ((processing_order files).map (fun f => f.path)).Perm
      (files.map (fun f => f.path)) := hperm.map _
  have hnd2 : ((processing_order files).map (fun f => f.path)).Nodup :=
    (hpm.nodup_iff).mpr hnd
  refine ⟨hperm, chain'_insertionSort fileLe fileLe_total files, ?_, ?_⟩
  · intro pre f post hsplit hab g hg hmem
    have h1 : g.path ∈ pre.map (fun g => g.path) := by
      have := touched_before_abort f hab pre post g.path
      rw [← hsplit] at this
      exact this hmem
    have h2 : g.path ∈ (f :: post).map (fun g => g.path) := by
      simp only [List.map_cons, List.mem_cons]
      exact Or.inr (List.mem_map.mpr ⟨g, hg, rfl⟩)
    rw [hsplit, List.map_append] at hnd2
    exact (List.disjoint_of_nodup_append hnd2) h1 h2
  · intro g hg hsk
    exact skip_not_touched (processing_order files) hnd2 g
      (hperm.mem_iff.mpr hg) hsk

theorem claim_C6_amended_witness :
    bfEarlyEpisode.path ∉ tvnamer_batch [bfLateEpisode,
      { bfEarlyEpisode with outcome := .skip }] :=
  (claim_C6_amended_order_and_abort
      [bfLateEpisode, { bfEarlyEpisode with outcome := .skip }] (by decide)).2.2.2
    { bfEarlyEpisode with outcome := .skip } (by simp) rfl

/-! ### C8: the engine's own output is re-parsable -/

theorem digit_ne (c : Char) (hc : isDigitCh c = true) :
    ¬ c = '-' ∧ ¬ c = 'x' ∧ ¬ c = ']' ∧ ¬ c = '[' ∧ ¬ c = '/' ∧ ¬ c = '\\' := by
  refine ⟨?_, ?_, ?_, ?_, ?_, ?_⟩ <;> rintro rfl <;> exact absurd hc (by decide)

theorem pad2_ne_nil (n : Nat) : pad2 n ≠ [] := by
  rw [pad2]
  split
  · simp
  · exact natToChars_ne_nil n

theorem allDigits_pad2 (n : Nat) : allDigits (pad2 n) = true := by
  rw [allDigits, List.all_eq_true]
  exact pad2_digits n

theorem allDigits_natToChars (n : Nat) : allDigits (natToChars n) = true := by
  rw [allDigits, List.all_eq_true]
  exact natToChars_digits n

theorem format_chars (eps : List Nat) :
    ∀ c ∈ format_episode_numbers eps, isDigitCh c = true ∨ c = '-' := by
  induction eps with
  | nil => intro c hc; simp [format_episode_numbers] at hc
  | cons n rest ih =>
    cases rest with
    | nil =>
      intro c hc
      exact Or.inl (pad2_digits n c hc)
    | cons m rs =>
      intro c hc
      rcases List.mem_append.mp hc with h | h
      · exact Or.inl (pad2_digits n c h)
      · rcases List.mem_cons.mp h with rfl | h
        · exact Or.inr rfl
        · exact ih c h

theorem splitOn_single (x : Char) (a : Str) (h : ∀ c ∈ a, ¬ c = x) :
    a.splitOn x = [a] := by
  unfold List.splitOn
  apply List.splitOnP_eq_single
  intro y hy
  simpa using h y hy

theorem splitOn_append (x : Char) (a b : Str) (h : ∀ c ∈ a, ¬ c = x) :
    (a ++ x :: b).splitOn x = a :: b.splitOn x := by
  unfold List.splitOn
  refine List.splitOnP_first (fun c => c == x) a ?_ x ?_ b
  · intro y hy
    simpa using h y hy
  · simp

theorem format_splitOn (eps : List Nat) (h : eps ≠ []) :
    (format_episode_numbers eps).splitOn '-' = eps.map pad2 := by
  induction eps with
  | nil => simp at h
  | cons n rest ih =>
    cases rest with
    | nil =>
      show (pad2 n).splitOn '-' = [pad2 n]
      exact splitOn_single '-' (pad2 n) (fun c hc => (digit_ne c (pad2_digits n c hc)).1)
    | cons m rs =>
      show (pad2 n ++ '-' :: format_episode_numbers (m :: rs)).splitOn '-' =
        pad2 n :: (m :: rs).map pad2
      rw [splitOn_append '-' _ _ (fun c hc => (digit_ne c (pad2_digits n c hc)).1),
        ih (by simp)]

theorem parseNumberList_format (eps : List Nat) (h : eps ≠ []) :
    parseNumberList (format_episode_numbers eps) = some eps := by
  unfold parseNumberList
  rw [format_splitOn eps h]
  rw [if_pos ?hall]
  case hall =>
    rw [List.all_eq_true]
    intro p hp
    rcases List.mem_map.mp hp with ⟨n, _, rfl⟩
    simp [allDigits_pad2, pad2_ne_nil n]
  rw [List.map_map]
  have hm : List.map (readNat ∘ pad2) eps = List.map id eps :=
    List.map_congr_left (fun n _ => readNat_pad2 n)
  rw [hm, List.map_id]

theorem gbse_some (s : Nat) (eps : List Nat) (h : eps ≠ []) :
    grammar_bracket_seasonEp (pad2 s ++ 'x' :: format_episode_numbers eps) =
      some (.seasonEp s eps [] none) := by
  unfold grammar_bracket_seasonEp
  rw [splitOn_append 'x' _ _ (fun c hc => (digit_ne c (pad2_digits s c hc)).2.1),
    splitOn_single 'x' _ ?hfmt]
  case hfmt =>
    intro c hc
    rcases format_chars eps c hc with hd | rfl
    · exact (digit_ne c hd).2.1
    · decide
  have hc1 : (allDigits (pad2 s) && !(pad2 s).isEmpty) = true := by
    simp [allDigits_pad2, pad2_ne_nil s]
  simp only [hc1, if_true, parseNumberList_format eps h, readNat_pad2]

theorem gbse_none (content : Str) (h : ∀ c ∈ content, ¬ c = 'x') :
    grammar_bracket_seasonEp content = none := by
  unfold grammar_bracket_seasonEp
  rw [splitOn_single 'x' content h]

theorem gbd_some (d : Date) (hy1 : 1000 ≤ d.year) (hy2 : d.year < 10000)
    (hm : d.month < 100) (hd : d.day < 100) :
    grammar_bracket_date
        (natToChars d.year ++ '-' :: (pad2 d.month ++ '-' :: pad2 d.day)) =
      some (.dated d none) := by
  obtain ⟨y, mo, da⟩ := d
  unfold grammar_bracket_date
  rw [splitOn_append '-' _ _ (fun c hc => (digit_ne c (natToChars_digits y c hc)).1),
    splitOn_append '-' _ _ (fun c hc => (digit_ne c (pad2_digits mo c hc)).1),
    splitOn_single '-' _ (fun c hc => (digit_ne c (pad2_digits da c hc)).1)]
  have h4 : (natToChars y).length = 4 := natToChars_length_eq_four hy1 hy2
  have hm2 : (pad2 mo).length = 2 := pad2_length_eq_two hm
  have hd2 : (pad2 da).length = 2 := pad2_length_eq_two hd
  simp [allDigits_natToChars, allDigits_pad2, h4, hm2, hd2,
    readNat_natToChars, readNat_pad2]

theorem gbd_none_noSeason (eps : List Nat) (h : eps ≠ [])
    (hlt : ∀ n ∈ eps, n < 1000) :
    grammar_bracket_date (format_episode_numbers eps) = none := by
  unfold grammar_bracket_date
  rw [format_splitOn eps h]
  rcases eps with _ | ⟨a, _ | ⟨b, _ | ⟨c, _ | ⟨d4, tl⟩⟩⟩⟩
  · simp at h
  · rfl
  · rfl
  · have h3 : (pad2 a).length ≤ 3 := pad2_length_le_three (hlt a (by simp))
    have h4 : decide ((pad2 a).length = 4) = false := by
      simp
      omega
    simp [h4]
  · rfl

theorem gbn_some (eps : List Nat) (h : eps ≠ []) :
    grammar_bracket_noSeason (format_episode_numbers eps) = some (.noSeason eps []) := by
  unfold grammar_bracket_noSeason
  rw [parseNumberList_format eps h]

theorem breakAtQ_append (x : Char) (a b : Str) (h : ∀ c ∈ a, ¬ c = x) :
    breakAtQ x (a ++ x :: b) = some (a, b) := by
  induction a with
  | nil =>
    rw [List.nil_append, breakAtQ, if_pos rfl]
  | cons c cs ih =>
    rw [List.cons_append, breakAtQ, if_neg (h c (by simp)),
      ih (fun d hd => h d (by simp [hd]))]

theorem mvf_id (cfg : SanitizeCfg) :
    ∀ s : Str, (∀ c ∈ s, isBlacklisted cfg c = false) →
      make_valid_filename cfg s = s := by
  intro s
  induction s with
  | nil => intro _; rfl
  | cons c cs ih =>
    intro h
    have hc := h c (List.mem_cons_self c cs)
    have ih2 := ih (fun d hd => h d (List.mem_cons_of_mem c hd))
    unfold make_valid_filename at ih2 ⊢
    rw [List.map_cons, List.flatten_cons, hc, if_neg (by simp), ih2,
      List.singleton_append]

theorem mid_chars_seasonEp (s : Nat) (eps : List Nat) (nm : List (Nat × Str))
    (ab : Option (List Nat)) :
    ∀ c ∈ variantMid (.seasonEp s eps nm ab),
      isDigitCh c = true ∨ c = 'x' ∨ c = '-' := by
  intro c hc
  rw [variantMid] at hc
  rcases List.mem_append.mp hc with h | h
  · exact Or.inl (pad2_digits s c h)
  · rcases List.mem_cons.mp h with rfl | h
    · exact Or.inr (Or.inl rfl)
    · rcases format_chars eps c h with h | rfl
      · exact Or.inl h
      · exact Or.inr (Or.inr rfl)

theorem mid_chars_dated (d : Date) (nm : Option Str) :
    ∀ c ∈ variantMid (.dated d nm), isDigitCh c = true ∨ c = '-' := by
  intro c hc
  rw [variantMid] at hc
  rcases List.mem_append.mp hc with h | h
  · exact Or.inl (natToChars_digits d.year c h)
  · rcases List.mem_cons.mp h with rfl | h
    · exact Or.inr rfl
    · rcases List.mem_append.mp h with h | h
      · exact Or.inl (pad2_digits d.month c h)
      · rcases List.mem_cons.mp h with rfl | h
        · exact Or.inr rfl
        · exact Or.inl (pad2_digits d.day c h)

theorem mid_chars_noSeason (eps : List Nat) (nm : List (Nat × Str)) :
    ∀ c ∈ variantMid (.noSeason eps nm), isDigitCh c = true ∨ c = '-' :=
  fun c hc => format_chars eps c hc

theorem mid_ne_rbracket (v : Variant) : ∀ c ∈ variantMid v, ¬ c = ']' := by
  intro c hc
  cases v with
  | seasonEp s eps nm ab =>
    rcases mid_chars_seasonEp s eps nm ab c hc with h | rfl | rfl
    · exact (digit_ne c h).2.2.1
    · decide
    · decide
  | dated d nm =>
    rcases mid_chars_dated d nm c hc with h | rfl
    · exact (digit_ne c h).2.2.1
    · decide
  | noSeason eps nm =>
    rcases mid_chars_noSeason eps nm c hc with h | rfl
    · exact (digit_ne c h).2.2.1
    · decide

theorem notBl_default (c : Char) (h1 : ¬ c = '/') (h2 : ¬ c = '\\') :
    isBlacklisted defaultOutputCfg.san c = false := by
  simp [isBlacklisted, defaultOutputCfg, h1, h2]

/-- Well-formedness of a variant's numeric payload, under which the
default-template output is re-parsed to the same identity core. -/
def variantWF : Variant → Prop
  | .seasonEp _ eps _ _ => eps ≠ []
  | .dated d _ => 1000 ≤ d.year ∧ d.year < 10000 ∧ d.month < 100 ∧ d.day < 100
  | .noSeason eps _ => eps ≠ [] ∧ ∀ n ∈ eps, n < 1000

theorem breakAtQ_none (x : Char) (cs : Str) (h : ∀ c ∈ cs, ¬ c = x) :
    breakAtQ x cs = none := by
  induction cs with
  | nil => rfl
  | cons c cs2 ih =>
    rw [breakAtQ, if_neg (h c (by simp)), ih (fun d hd => h d (by simp [hd]))]

theorem bracket_scan_step (g : Str → Option Variant) (pre rest : Str)
    (hpre : ∀ c ∈ pre, ¬ c = '[') :
    bracket_scan g (pre ++ '[' :: rest) =
      match (match breakAtQ ']' rest with
             | none => none
             | some q => g q.1) with
      | some v => some (pre, v)
      | none =>
        match bracket_scan g rest with
        | some r => some (pre ++ '[' :: r.1, r.2)
        | none => none := by
  rw [bracket_scan_eq, breakAtQ_append '[' pre rest hpre]

/-- `bracket_scan_step` at a leading `[`. -/
theorem bracket_scan_step0 (g : Str → Option Variant) (rest : Str) :
    bracket_scan g ('[' :: rest) =
      match (match breakAtQ ']' rest with
             | none => none
             | some q => g q.1) with
      | some v => some ([], v)
      | none =>
        match bracket_scan g rest with
        | some r => some ('[' :: r.1, r.2)
        | none => none := by
  rw [bracket_scan_eq, breakAtQ, if_pos rfl]
  rfl

theorem bracket_scan_no_bracket (g : Str → Option Variant) (cs : Str)
    (h : ∀ c ∈ cs, ¬ c = '[') : bracket_scan g cs = none := by
  rw [bracket_scan_eq, breakAtQ_none '[' cs h]

theorem bracket_scan_hit (g : Str → Option Variant) (pre mid rest2 : Str) (v : Variant)
    (hpre : ∀ c ∈ pre, ¬ c = '[') (hmid : ∀ c ∈ mid, ¬ c = ']')
    (hg : g mid = some v) :
    bracket_scan g (pre ++ '[' :: (mid ++ ']' :: rest2)) = some (pre, v) := by
  rw [bracket_scan_step g pre _ hpre]
  simp only [breakAtQ_append ']' mid rest2 hmid, hg]

theorem bracket_scan_miss (g : Str → Option Variant) (pre mid rest2 : Str)
    (hpre : ∀ c ∈ pre, ¬ c = '[') (hmid : ∀ c ∈ mid, ¬ c = ']')
    (hg : g mid = none) :
    bracket_scan g (pre ++ '[' :: (mid ++ ']' :: rest2)) =
      match bracket_scan g (mid ++ ']' :: rest2) with
      | some r => some (pre ++ '[' :: r.1, r.2)
      | none => none := by
  rw [bracket_scan_step g pre _ hpre]
  simp only [breakAtQ_append ']' mid rest2 hmid, hg]

theorem mvf_append (cfg : SanitizeCfg) (a b : Str) :
    make_valid_filename cfg (a ++ b) =
      make_valid_filename cfg a ++ make_valid_filename cfg b := by
  unfold make_valid_filename
  rw [List.map_append, List.flatten_append]

theorem mvf_cons_clean (cfg : SanitizeCfg) (c : Char) (s : Str)
    (h : isBlacklisted cfg c = false) :
    make_valid_filename cfg (c :: s) = c :: make_valid_filename cfg s := by
  unfold make_valid_filename
  rw [List.map_cons, List.flatten_cons, h, if_neg (by simp), List.singleton_append]

/-- Sanitization introduces no characters beyond the replacement string. -/
theorem mvf_mem (cfg : SanitizeCfg) (s : Str) (c : Char)
    (hc : c ∈ make_valid_filename cfg s) : c ∈ s ∨ c ∈ cfg.replace_with := by
  unfold make_valid_filename at hc
  rw [List.mem_flatten] at hc
  obtain ⟨p, hp, hcp⟩ := hc
  rw [List.mem_map] at hp
  obtain ⟨a, ha, rfl⟩ := hp
  by_cases h : isBlacklisted cfg a = true
  · rw [if_pos h] at hcp
    exact Or.inr hcp
  · rw [if_neg h] at hcp
    simp only [List.mem_singleton] at hcp
    subst hcp
    exact Or.inl ha

theorem mid_not_blacklisted (v : Variant) :
    ∀ c ∈ variantMid v, isBlacklisted defaultOutputCfg.san c = false := by
  intro c hc
  cases v with
  | seasonEp s eps nm ab =>
    rcases mid_chars_seasonEp s eps nm ab c hc with hd | rfl | rfl
    · exact notBl_default c (digit_ne c hd).2.2.2.2.1 (digit_ne c hd).2.2.2.2.2
    · decide
    · decide
  | dated d nm =>
    rcases mid_chars_dated d nm c hc with hd | rfl
    · exact notBl_default c (digit_ne c hd).2.2.2.2.1 (digit_ne c hd).2.2.2.2.2
    · decide
  | noSeason eps nm =>
    rcases mid_chars_noSeason eps nm c hc with hd | rfl
    · exact notBl_default c (digit_ne c hd).2.2.2.2.1 (digit_ne c hd).2.2.2.2.2
    · decide

theorem mid_ne_lbracket (v : Variant) : ∀ c ∈ variantMid v, ¬ c = '[' := by
  intro c hc
  cases v with
  | seasonEp s eps nm ab =>
    rcases mid_chars_seasonEp s eps nm ab c hc with h | rfl | rfl
    · exact (digit_ne c h).2.2.2.1
    · decide
    · decide
  | dated d nm =>
    rcases mid_chars_dated d nm c hc with h | rfl
    · exact (digit_ne c h).2.2.2.1
    · decide
  | noSeason eps nm =>
    rcases mid_chars_noSeason eps nm c hc with h | rfl
    · exact (digit_ne c h).2.2.2.1
    · decide

/-- The default output transform only sanitizes, and sanitization
distributes over the generated filename's fixed skeleton: the series
name and the title/extension tail are sanitized in place while the
template's separators, bracket and numeric segment pass through. -/
theorem generate_split (e : EpisodeIdentity) :
    generate_filename defaultOutputCfg e =
      make_valid_filename defaultOutputCfg.san (e.seriesname.getD []) ++
        ([' ', '-', ' '] ++ '[' :: (variantMid e.variant ++
          ']' :: make_valid_filename defaultOutputCfg.san
            (titleSegment (variantTitle e.variant) ++ e.extension))) := by
  show make_valid_filename defaultOutputCfg.san (generate_base e) = _
  rw [generate_base]
  rw [mvf_append, mvf_append, mvf_append,
    mvf_id defaultOutputCfg.san [' ', '-', ' ', '['] (by decide),
    mvf_id defaultOutputCfg.san (variantMid e.variant) (mid_not_blacklisted e.variant),
    mvf_cons_clean defaultOutputCfg.san ']' _ (by decide)]
  simp [List.append_assoc]

theorem mem_splitOnP_of_mem (p : Char → Bool) :
    ∀ (t : Str) (c : Char), c ∈ t → p c = false → ∃ l ∈ t.splitOnP p, c ∈ l := by
  intro t
  induction t with
  | nil => intro c hc _; simp at hc
  | cons d t2 ih =>
    intro c hc hpc
    rw [List.splitOnP_cons]
    by_cases hd : p d = true
    · rw [if_pos hd]
      rcases List.mem_cons.mp hc with rfl | hc2
      · rw [hd] at hpc; cases hpc
      · obtain ⟨l, hl, hcl⟩ := ih c hc2 hpc
        exact ⟨l, List.mem_cons_of_mem _ hl, hcl⟩
    · rw [if_neg hd]
      cases hsp : t2.splitOnP p with
      | nil => exact absurd hsp (List.splitOnP_ne_nil p t2)
      | cons l0 rest =>
        rcases List.mem_cons.mp hc with rfl | hc2
        · exact ⟨c :: l0, List.mem_cons_self _ _, List.mem_cons_self _ _⟩
        · obtain ⟨l, hl, hcl⟩ := ih c hc2 hpc
          rw [hsp] at hl
          rcases List.mem_cons.mp hl with rfl | hlr
          · exact ⟨d :: l, List.mem_cons_self _ _, List.mem_cons_of_mem _ hcl⟩
          · exact ⟨l, List.mem_cons_of_mem _ hlr, hcl⟩

theorem mem_splitOn_of_mem (x : Char) (t : Str) (c : Char) (hc : c ∈ t)
    (hcx : ¬ c = x) : ∃ l ∈ t.splitOn x, c ∈ l := by
  unfold List.splitOn
  exact mem_splitOnP_of_mem _ t c hc (by simpa using hcx)

theorem allDigits_false_of_mem (l : Str) (c : Char) (hc : c ∈ l)
    (h : isDigitCh c = false) : allDigits l = false := by
  cases hall : allDigits l with
  | false => rfl
  | true =>
    rw [allDigits, List.all_eq_true] at hall
    rw [hall c hc] at h
    cases h

theorem parseNumberList_none_badchar (s : Str) (c : Char) (hc : c ∈ s)
    (h1 : isDigitCh c = false) (h3 : ¬ c = '-') :
    parseNumberList s = none := by
  unfold parseNumberList
  obtain ⟨l, hl, hcl⟩ := mem_splitOn_of_mem '-' s c hc h3
  have hfalse : (allDigits l && !l.isEmpty) = false := by
    rw [allDigits_false_of_mem l c hcl h1]
    rfl
  rw [if_neg ?_]
  rw [List.all_eq_true]
  intro hall
  rw [hall l hl] at hfalse
  cases hfalse

theorem gbse_none_badchar (t : Str) (c : Char) (hc : c ∈ t)
    (h1 : isDigitCh c = false) (h2 : ¬ c = 'x') (h3 : ¬ c = '-') :
    grammar_bracket_seasonEp t = none := by
  unfold grammar_bracket_seasonEp
  obtain ⟨l, hl, hcl⟩ := mem_splitOn_of_mem 'x' t c hc h2
  cases hsp : t.splitOn 'x' with
  | nil => rfl
  | cons s0 rest =>
    cases rest with
    | nil => rfl
    | cons eps rest2 =>
      cases rest2 with
      | cons _ _ => rfl
      | nil =>
        rw [hsp] at hl
        rcases List.mem_cons.mp hl with rfl | hl2
        · simp [allDigits_false_of_mem l c hcl h1]
        · rcases List.mem_cons.mp hl2 with rfl | h4
          · simp [parseNumberList_none_badchar l c hcl h1 h3]
          · simp at h4

theorem gbd_none_badchar (t : Str) (c : Char) (hc : c ∈ t)
    (h1 : isDigitCh c = false) (h3 : ¬ c = '-') :
    grammar_bracket_date t = none := by
  unfold grammar_bracket_date
  obtain ⟨l, hl, hcl⟩ := mem_splitOn_of_mem '-' t c hc h3
  have hlf : allDigits l = false := allDigits_false_of_mem l c hcl h1
  cases hsp : t.splitOn '-' with
  | nil => rfl
  | cons y rest =>
    cases rest with
    | nil => rfl
    | cons m rest2 =>
      cases rest2 with
      | nil => rfl
      | cons d rest3 =>
        cases rest3 with
        | cons _ _ => rfl
        | nil =>
          rw [hsp] at hl
          rcases List.mem_cons.mp hl with rfl | hl2
          · simp [hlf]
          · rcases List.mem_cons.mp hl2 with rfl | hl3
            · simp [hlf]
            · rcases List.mem_cons.mp hl3 with rfl | hl4
              · simp [hlf]
              · simp at hl4

theorem gbn_none_badchar (t : Str) (c : Char) (hc : c ∈ t)
    (h1 : isDigitCh c = false) (h3 : ¬ c = '-') :
    grammar_bracket_noSeason t = none := by
  unfold grammar_bracket_noSeason
  rw [parseNumberList_none_badchar t c hc h1 h3]

/-- Shape restriction on a (sanitized) series name under which the
generated bracketed numbers cannot be shadowed: either the name is
bracket-free, or it starts with a single bracketed scene tag whose
content holds a character no bracket grammar accepts, followed by a
bracket-free remainder (the `[Bleachverse] Bleach` shape of
`test_resolve_absoloute_episode`). -/
def seriesOk (s : Str) : Prop :=
  (∀ c ∈ s, ¬ c = '[') ∨
    ∃ t core c, s = '[' :: (t ++ ']' :: core) ∧
      (∀ d ∈ t, ¬ d = '[' ∧ ¬ d = ']') ∧ (∀ d ∈ core, ¬ d = '[') ∧
      c ∈ t ∧ isDigitCh c = false ∧ ¬ c = 'x' ∧ ¬ c = '-'

/-- Evaluation of a bracket grammar on a generated filename: the scan
skips the optional scene tag and any bracket-free series text, then
stands or falls with the content grammar's verdict on the template's
numeric segment. -/
theorem bracket_grammar_template (g : Str → Option Variant)
    (series2 mid tail2 : Str) (hok : seriesOk series2)
    (hGbad : ∀ (t : Str) (c : Char), c ∈ t → isDigitCh c = false →
      ¬ c = 'x' → ¬ c = '-' → g t = none)
    (hmid_rb : ∀ c ∈ mid, ¬ c = ']') (hmid_lb : ∀ c ∈ mid, ¬ c = '[')
    (htail : ∀ c ∈ tail2, ¬ c = '[') :
    (g mid = none →
      bracket_grammar g (series2 ++ ([' ', '-', ' '] ++ '[' :: (mid ++ ']' :: tail2))) =
        none) ∧
    (∀ v, g mid = some v →
      ∃ sc, bracket_grammar g
          (series2 ++ ([' ', '-', ' '] ++ '[' :: (mid ++ ']' :: tail2))) =
        some (sc, v)) := by
  have hafter : ∀ c ∈ mid ++ ']' :: tail2, ¬ c = '[' := by
    intro c hcm
    rcases List.mem_append.mp hcm with h | h
    · exact hmid_lb c h
    · rcases List.mem_cons.mp h with rfl | h
      · decide
      · exact htail c h
  rcases hok with hnb | ⟨t, core, c0, hEq, htc, hcore, hc0t, hd1, hd2, hd3⟩
  · have hpre : ∀ c ∈ series2 ++ [' ', '-', ' '], ¬ c = '[' := by
      intro c hcm
      rcases List.mem_append.mp hcm with h | h
      · exact hnb c h
      · have : c = ' ' ∨ c = '-' ∨ c = ' ' := by simpa using h
        rcases this with rfl | rfl | rfl <;> decide
    have hfull : series2 ++ ([' ', '-', ' '] ++ '[' :: (mid ++ ']' :: tail2)) =
        (series2 ++ [' ', '-', ' ']) ++ '[' :: (mid ++ ']' :: tail2) := by
      rw [List.append_assoc]
    constructor
    · intro hgn
      unfold bracket_grammar
      rw [hfull, bracket_scan_miss g _ mid tail2 hpre hmid_rb hgn,
        bracket_scan_no_bracket g _ hafter]
    · intro v hgv
      refine ⟨seriesClean (series2 ++ [' ', '-', ' ']), ?_⟩
      unfold bracket_grammar
      rw [hfull, bracket_scan_hit g _ mid tail2 v hpre hmid_rb hgv]
  · have hg_t : g t = none := hGbad t c0 hc0t hd1 hd2 hd3
    have hfull : series2 ++ ([' ', '-', ' '] ++ '[' :: (mid ++ ']' :: tail2)) =
        '[' :: (t ++ ']' :: ((core ++ [' ', '-', ' ']) ++ '[' :: (mid ++ ']' :: tail2))) := by
      rw [hEq]
      simp [List.append_assoc]
    have hpre2 : ∀ c ∈ t ++ ']' :: (core ++ [' ', '-', ' ']), ¬ c = '[' := by
      intro c hcm
      rcases List.mem_append.mp hcm with h | h
      · exact (htc c h).1
      · rcases List.mem_cons.mp h with rfl | h
        · decide
        · rcases List.mem_append.mp h with h | h
          · exact hcore c h
          · have : c = ' ' ∨ c = '-' ∨ c = ' ' := by simpa using h
            rcases this with rfl | rfl | rfl <;> decide
    have hEq2 : t ++ ']' :: ((core ++ [' ', '-', ' ']) ++ '[' :: (mid ++ ']' :: tail2)) =
        (t ++ ']' :: (core ++ [' ', '-', ' '])) ++ '[' :: (mid ++ ']' :: tail2) := by
      simp [List.append_assoc]
    constructor
    · intro hgn
      unfold bracket_grammar
      rw [hfull, bracket_scan_step0]
      simp only [breakAtQ_append ']' t _ (fun d hd => (htc d hd).2), hg_t]
      rw [hEq2, bracket_scan_miss g _ mid tail2 hpre2 hmid_rb hgn,
        bracket_scan_no_bracket g _ hafter]
    · intro v hgv
      refine ⟨?_, ?_⟩
      case _ => exact seriesClean ('[' :: ((t ++ ']' :: (core ++ [' ', '-', ' ']))))
      unfold bracket_grammar
      rw [hfull, bracket_scan_step0]
      simp only [breakAtQ_append ']' t _ (fun d hd => (htc d hd).2), hg_t]
      rw [hEq2, bracket_scan_hit g _ mid tail2 v hpre2 hmid_rb hgv]

/-- The C8 counterexample identity: a series name carrying a bracketed
number, as a no-season episode 23. -/
def epBracketNumberName : EpisodeIdentity :=
  { seriesname := some (("Show [2021]").toList)
    fullfilename := ("Show [2021] - [23].avi").toList
    extension := (".avi").toList
    filesize_in_bytes := 0
    variant := .noSeason [23] [] }

/-- C8 counterexample: the claim's universal round-trip fails — for a
series name containing a bracketed number, the first number-like
bracket wins (as with the source's non-greedy `.+?` series capture), so
the generated `Show [2021] - [23].avi` re-parses to episode 2021, not
episode 23. -/
theorem claim_C8_counterexample :
    (parse 2021 [] (generate_filename defaultOutputCfg epBracketNumberName)).toOption.map
        (fun e2 => e2.variant.core) = some (IdentityCore.noSeason [2021]) ∧
    ¬ IdentityCore.noSeason [2021] = epBracketNumberName.variant.core := by
  refine ⟨by decide, by decide⟩

/-- C8 amended: the engine's output is re-parsable to the same variant
tag and numbers/date whenever the generated bracketed numbers cannot be
shadowed: the sanitized series name is bracket-free or starts with one
non-numeric bracketed scene tag, the title/extension contain no `[`,
and the numeric payload is in range. -/
theorem claim_C8_amended_roundtrip (cy : Nat) (e : EpisodeIdentity)
    (hser : seriesOk (make_valid_filename defaultOutputCfg.san (e.seriesname.getD [])))
    (htail : ∀ c ∈ titleSegment (variantTitle e.variant) ++ e.extension, ¬ c = '[')
    (hwf : variantWF e.variant) :
    ∃ e2, parse cy [] (generate_filename defaultOutputCfg e) = .ok e2 ∧
      e2.variant.core = e.variant.core := by
  obtain ⟨sn, ff, ext, fsz, v⟩ := e
  simp only at hser htail hwf
  rw [generate_split]
  simp only
  have htail2 : ∀ c ∈ make_valid_filename defaultOutputCfg.san
      (titleSegment (variantTitle v) ++ ext), ¬ c = '[' := by
    intro c hc
    rcases mvf_mem _ _ c hc with h | h
    · exact htail c h
    · simp [defaultOutputCfg] at h
  unfold parse
  simp only [apply_replacements, List.foldl_nil]
  cases v with
  | seasonEp s eps nm ab =>
    have heps : eps ≠ [] := hwf
    obtain ⟨sc1, hg1⟩ :=
      (bracket_grammar_template grammar_bracket_seasonEp
        (make_valid_filename defaultOutputCfg.san (sn.getD []))
        (variantMid (.seasonEp s eps nm ab))
        (make_valid_filename defaultOutputCfg.san
          (titleSegment (variantTitle (.seasonEp s eps nm ab)) ++ ext))
        hser (fun t c2 hm hd hx hmn => gbse_none_badchar t c2 hm hd hx hmn)
        (mid_ne_rbracket _) (mid_ne_lbracket _) htail2).2
      _ (gbse_some s eps heps)
    simp only [grammars, firstMatch, hg1]
    exact ⟨_, rfl, rfl⟩
  | dated d nm =>
    obtain ⟨hy1, hy2, hm2, hd2⟩ := hwf
    have hg1 :=
      (bracket_grammar_template grammar_bracket_seasonEp
        (make_valid_filename defaultOutputCfg.san (sn.getD []))
        (variantMid (.dated d nm))
        (make_valid_filename defaultOutputCfg.san
          (titleSegment (variantTitle (.dated d nm)) ++ ext))
        hser (fun t c2 hm hd hx hmn => gbse_none_badchar t c2 hm hd hx hmn)
        (mid_ne_rbracket _) (mid_ne_lbracket _) htail2).1
      (gbse_none _ (fun c2 hcm => by
        rcases mid_chars_dated d nm c2 hcm with h | rfl
        · exact (digit_ne c2 h).2.1
        · decide))
    obtain ⟨sc2, hg2⟩ :=
      (bracket_grammar_template grammar_bracket_date
        (make_valid_filename defaultOutputCfg.san (sn.getD []))
        (variantMid (.dated d nm))
        (make_valid_filename defaultOutputCfg.san
          (titleSegment (variantTitle (.dated d nm)) ++ ext))
        hser (fun t c2 hm hd _ hmn => gbd_none_badchar t c2 hm hd hmn)
        (mid_ne_rbracket _) (mid_ne_lbracket _) htail2).2
      _ (gbd_some d hy1 hy2 hm2 hd2)
    simp only [grammars, firstMatch, hg1, hg2]
    exact ⟨_, rfl, rfl⟩
  | noSeason eps nm =>
    obtain ⟨heps, hlt⟩ := hwf
    have hg1 :=
      (bracket_grammar_template grammar_bracket_seasonEp
        (make_valid_filename defaultOutputCfg.san (sn.getD []))
        (variantMid (.noSeason eps nm))
        (make_valid_filename defaultOutputCfg.san
          (titleSegment (variantTitle (.noSeason eps nm)) ++ ext))
        hser (fun t c2 hm hd hx hmn => gbse_none_badchar t c2 hm hd hx hmn)
        (mid_ne_rbracket _) (mid_ne_lbracket _) htail2).1
      (gbse_none _ (fun c2 hcm => by
        rcases mid_chars_noSeason eps nm c2 hcm with h | rfl
        · exact (digit_ne c2 h).2.1
        · decide))
    have hg2 :=
      (bracket_grammar_template grammar_bracket_date
        (make_valid_filename defaultOutputCfg.san (sn.getD []))
        (variantMid (.noSeason eps nm))
        (make_valid_filename defaultOutputCfg.san
          (titleSegment (variantTitle (.noSeason eps nm)) ++ ext))
        hser (fun t c2 hm hd _ hmn => gbd_none_badchar t c2 hm hd hmn)
        (mid_ne_rbracket _) (mid_ne_lbracket _) htail2).1
      (gbd_none_noSeason eps heps hlt)
    obtain ⟨sc3, hg3⟩ :=
      (bracket_grammar_template grammar_bracket_noSeason
        (make_valid_filename defaultOutputCfg.san (sn.getD []))
        (variantMid (.noSeason eps nm))
        (make_valid_filename defaultOutputCfg.san
          (titleSegment (variantTitle (.noSeason eps nm)) ++ ext))
        hser (fun t c2 hm hd _ hmn => gbn_none_badchar t c2 hm hd hmn)
        (mid_ne_rbracket _) (mid_ne_lbracket _) htail2).2
      _ (gbn_some eps heps)
    simp only [grammars, firstMatch, hg1, hg2, hg3]
    exact ⟨_, rfl, rfl⟩

/-- The identity behind `test_resolve_absoloute_episode`'s output
`[Bleachverse] Bleach - [310] - ….avi`: a scene-tagged series name with
an absolute (no-season) episode number. -/
def epBleach : EpisodeIdentity :=
  { seriesname := some (("[Bleachverse] Bleach").toList)
    fullfilename := ("[Bleachverse] Bleach - [310] - Ichigos Resolution.avi").toList
    extension := (".avi").toList
    filesize_in_bytes := 0
    variant := .noSeason [310] [(310, ("Ichigos Resolution").toList)] }

theorem claim_C8_amended_witness :
    ∃ e2, parse 2021 [] (generate_filename defaultOutputCfg epBleach) = .ok e2 ∧
      e2.variant.core = epBleach.variant.core :=
  claim_C8_amended_roundtrip 2021 epBleach
    (Or.inr ⟨("Bleachverse").toList, (" Bleach").toList, 'B', by decide, by decide,
      by decide, by decide, by decide, by decide, by decide⟩)
    (by decide)
    (show ([310] : List Nat) ≠ [] ∧ ∀ n ∈ ([310] : List Nat), n < 1000 by
      refine ⟨by decide, by decide⟩)

/-- The configuration of `test_replace_with_underscore`: blacklist `" "`,
replacement `"_"`. -/
def underscoreCfg : OutputCfg :=
  { replacements := []
    lowercase := false
    titlecase := false
    normalize := false
    san := { windows_safe := false, custom_blacklist := [' '], replace_with := ['_'] } }

/-- Renaming only happens inside the not-equal branch of `process_file`;
the move stage never issues a rename call. -/
theorem move_stage_no_rename (cfg : Config) (exd : Str → Bool) (e : EpisodeIdentity)
    (acc : List MutCall) (a : Char) (n : Str)
    (h : MutCall.renameCall n ∈ (move_stage cfg exd e acc a).1) :
    MutCall.renameCall n ∈ acc := by
  unfold move_stage at h
  by_cases h1 : cfg.move_files_enable = true
  · rw [if_pos h1] at h
    by_cases h2 : cfg.dry_run = true
    · rwa [if_pos h2] at h
    · rw [if_neg h2] at h
      by_cases h3 : cfg.move_files_destination_is_filepath = true <;>
        by_cases h4 : (if ¬ cfg.batch = true ∧ cfg.move_files_confirmation = true
            then a else 'y') = 'y' <;>
        simp only [h3, if_true, if_false, Bool.false_eq_true] at h <;>
        split_ifs at h <;> simp_all
  · rwa [if_neg h1] at h

/-- The episode of the C2 counterexample: its current filename is
exactly what `generate_filename` produces for it. -/
def epAlreadyNamed : EpisodeIdentity :=
  { seriesname := some (("scrubs").toList)
    fullfilename := ("scrubs - [01x01].avi").toList
    extension := (".avi").toList
    filesize_in_bytes := 0
    variant := .seasonEp 1 [1] [] none }

/-- The configuration of the C2 counterexample: batch mode with
move-files enabled (destination given as a file path). -/
def moveEnabledCfg : Config :=
  { testConfig with
    move_files_enable := true
    move_files_destination_is_filepath := true }

/-- C2 counterexample: for an episode whose freshly generated filename
equals its current filename, with move-files enabled, `process_file`
still issues move calls — a filesystem mutation is attempted, refuting
"no filesystem mutation of any kind (neither rename nor move)". -/
theorem claim_C2_counterexample :
    generate_filename moveEnabledCfg.output epAlreadyNamed = epAlreadyNamed.fullfilename ∧
    (process_file_calls moveEnabledCfg (fun _ => false) epAlreadyNamed 'y' 'y').1.any
        MutCall.isMove = true := by
  constructor
  · decide
  · decide

/-- C2 amended: if the freshly generated filename equals the current
filename, no rename call is issued for that file (for any configuration,
answers and directory state); when move-files mode is enabled the file
still proceeds to the move stage, so a move may be attempted. -/
theorem claim_C2_amended_no_rename_when_equal (cfg : Config) (exd : Str → Bool)
    (e : EpisodeIdentity) (a1 a2 : Char)
    (heq : generate_filename cfg.output e = e.fullfilename) (n : Str) :
    MutCall.renameCall n ∉ (process_file_calls cfg exd e a1 a2).1 := by
  intro hmem
  unfold process_file_calls at hmem
  by_cases hmo : cfg.move_files_only = true
  · rw [if_pos hmo] at hmem
    have := move_stage_no_rename _ _ _ _ _ _ hmem
    simp at this
  · rw [if_neg hmo] at hmem
    simp only [heq, if_pos] at hmem
    have := move_stage_no_rename _ _ _ _ _ _ hmem
    simp at this

theorem claim_C2_amended_witness :
    MutCall.renameCall (("x").toList) ∉
      (process_file_calls moveEnabledCfg (fun _ => false) epAlreadyNamed 'y' 'y').1 :=
  claim_C2_amended_no_rename_when_equal moveEnabledCfg (fun _ => false)
    epAlreadyNamed 'y' 'y' (by decide) (("x").toList)

/-- The configuration of the C9 counterexample: constant templates so
the primary and alternate destinations are distinguishable. -/
def altPreferCfg : Config :=
  { testConfig with
    move_files_enable := true
    move_files_destination := some (fun _ => ("primary").toList)
    move_files_destination_alt := fun _ => ("alt").toList }

/-- A no-season episode used by the C9 counterexample and witness. -/
def epNoSeason23 : EpisodeIdentity :=
  { seriesname := some (("scrubs").toList)
    fullfilename := ("scrubs - e23.avi").toList
    extension := (".avi").toList
    filesize_in_bytes := 0
    variant := .noSeason [23] [] }

/-- C9 counterexample: for a no-season episode the alternate destination
directory exists on disk, yet `get_move_destination` still resolves to
the primary template — the alternate-destination fallback is only
implemented for the season-episode variant. -/
theorem claim_C9_counterexample :
    (fun s => s == ("alt").toList) (("alt").toList) = true ∧
    get_move_destination altPreferCfg (fun s => s == ("alt").toList) epNoSeason23 =
      some (("primary").toList) ∧
    ("primary").toList ≠ ("alt").toList := by
  refine ⟨by decide, by decide, by decide⟩

theorem do_move_file_core_mkdir (cfg : Config) (fs : FS) (src p : Str) (pv : Bool) :
    (do_move_file_core cfg fs src p pv).1.dirs.contains p = true := by
  simp only [do_move_file_core]
  by_cases hc : fs.dirs.contains p = true
  · rw [if_pos hc]
    unfold renamer_move
    split_ifs <;> simp_all
  · rw [if_neg hc]
    unfold renamer_move
    split_ifs <;> simp

/-- C9 amended: only season-episode identities consult the alternate
destination (used exactly when it already exists on disk, the primary
template otherwise); dated and no-season identities always expand their
primary template; and moving to an explicit destination file path
creates the missing directory. -/
theorem claim_C9_amended_alternate_destination (cfg : Config) (exd : Str → Bool)
    (e : EpisodeIdentity) (t : DestSubst → Str)
    (ht : cfg.move_files_destination = some t) :
    (∀ s eps nm ab, e.variant = .seasonEp s eps nm ab →
      get_move_destination cfg exd e =
        some (if exd (cfg.move_files_destination_alt
                { seriesname := wrap_validfname cfg (e.seriesname.getD [])
                  seasonnumber := some s
                  episodenumbers := wrap_validfname cfg (format_episode_numbers eps)
                  originalfilename := e.fullfilename })
              then cfg.move_files_destination_alt
                { seriesname := wrap_validfname cfg (e.seriesname.getD [])
                  seasonnumber := some s
                  episodenumbers := wrap_validfname cfg (format_episode_numbers eps)
                  originalfilename := e.fullfilename }
              else t
                { seriesname := wrap_validfname cfg (e.seriesname.getD [])
                  seasonnumber := some s
                  episodenumbers := wrap_validfname cfg (format_episode_numbers eps)
                  originalfilename := e.fullfilename })) ∧
    (∀ d nm, e.variant = .dated d nm →
      get_move_destination cfg exd e =
        some (cfg.move_files_destination_date
          { seriesname := make_valid_filename default_sanitize (e.seriesname.getD [])
            year := d.year, month := d.month, day := d.day
            originalfilename := e.fullfilename })) ∧
    (∀ eps nm, e.variant = .noSeason eps nm →
      get_move_destination cfg exd e =
        some (t { seriesname := wrap_validfname cfg (e.seriesname.getD [])
                  seasonnumber := none
                  episodenumbers := wrap_validfname cfg (format_episode_numbers eps)
                  originalfilename := e.fullfilename })) ∧
    (∀ fs src p preview, cfg.move_files_enable = true →
      (do_move_file cfg fs src none (some p) preview).1.dirs.contains p = true) := by
  refine ⟨?_, ?_, ?_, ?_⟩
  · intro s eps nm ab hv
    unfold get_move_destination
    rw [hv, ht]
  · intro d nm hv
    unfold get_move_destination
    rw [hv]
  · intro eps nm hv
    unfold get_move_destination
    rw [hv, ht]
  · intro fs src p preview hen
    unfold do_move_file
    rw [if_neg (by simp), if_neg (by simp [hen]), if_neg (by simp [ht])]
    exact do_move_file_core_mkdir cfg fs src p preview

theorem claim_C9_amended_witness :
    get_move_destination altPreferCfg (fun s => s == ("alt").toList) epNoSeason23 =
      some ((fun _ : DestSubst => ("primary").toList)
        { seriesname := wrap_validfname altPreferCfg (epNoSeason23.seriesname.getD [])
          seasonnumber := none
          episodenumbers := wrap_validfname altPreferCfg (format_episode_numbers [23])
          originalfilename := epNoSeason23.fullfilename }) :=
  (claim_C9_amended_alternate_destination altPreferCfg (fun s => s == ("alt").toList)
      epNoSeason23 (fun _ => ("primary").toList) rfl).2.2.1 [23] [] rfl

theorem claim_C4_witness :
    (generate_filename underscoreCfg
        { seriesname := some (("Scrubs").toList)
          fullfilename := ("scrubs.s01e01.avi").toList
          extension := (".avi").toList
          filesize_in_bytes := 0
          variant := .seasonEp 1 [1] [(1, ("My First Day").toList)] none }).all
      (fun c => !(isBlacklisted underscoreCfg.san c)) = true := by
  rw [List.all_eq_true]
  intro c hc
  have h := claim_C4_sanitization_runs_last underscoreCfg
    { seriesname := some (("Scrubs").toList)
      fullfilename := ("scrubs.s01e01.avi").toList
      extension := (".avi").toList
      filesize_in_bytes := 0
      variant := .seasonEp 1 [1] [(1, ("My First Day").toList)] none }
    (by decide) c hc
  simp [h]

end Tvnamer
